import Mathlib

/-!
Shallow embedding of the `TFKernelToLLVMPass`
(`tensorflow/compiler/mlir/tools/kernel_gen/transforms/tf_kernel_to_llvm_pass.cc`)
and proofs about its rewrite pattern, parameter marshalling and pass driver.

The embedding models:
* the module-level state read and written by
  `ConvertLaunchFuncOpToTfRuntimeCallPattern::matchAndRewrite` (globals,
  function declarations, nested GPU modules),
* the instruction sequence emitted by `generateParamsArray` together with a
  small operational semantics (SSA environment + memory) for the emitted
  `llvm.const` / `llvm.alloca` / `llvm.getelementptr` / `llvm.store` /
  `llvm.bitcast` operations,
* the driver `TFKernelToLLVMPass::runOnOperation`, with the external
  fixpoint conversion engine restricted (as the spec allows) to applying the
  launch rewrite rule to every launch instruction of the module.
-/

namespace TFKernelToLLVM

/- LLVM types as used by the pattern (`llvm_void_type_`, `llvm_pointer_type_`
etc. in the source).  Field and parameter lists are a mutually defined list
type so that decidable equality can be derived. -/
mutual
inductive LLVMTy where
  | void
  | i8
  | i32
  | i64
  | iptr
  | ptr (t : LLVMTy)
  | structOf (fields : LLVMTyList)
  | funcOf (ret : LLVMTy) (params : LLVMTyList)
deriving DecidableEq, Repr

inductive LLVMTyList where
  | nil
  | cons (head : LLVMTy) (tail : LLVMTyList)
deriving DecidableEq, Repr
end

deriving instance DecidableEq for Except

/-- Builds an `LLVMTyList` from a `List LLVMTy`. -/
def LLVMTyList.ofList : List LLVMTy → LLVMTyList
  | [] => .nil
  | t :: ts => .cons t (LLVMTyList.ofList ts)

/-- An MLIR attribute as far as this pass observes it:
`getAttrOfType<StringAttr>` either sees a string-typed attribute (whose
payload we keep as bytes) or an attribute of any other type. -/
inductive Attr where
  | str (bytes : List Nat)
  | nonStr
deriving DecidableEq, Repr

/-- A `gpu.module` operation: a named nested module carrying attributes
(the blob annotation among them, when present). -/
structure GPUModuleOp where
  name : String
  attrs : List (String × Attr)
deriving DecidableEq, Repr

/-- A `gpu.launch_func` operation, with the fields `matchAndRewrite` reads.
Its operand list is `asyncDependencies ++ grid(3) ++ block(3) ++
kernelOperands`; the converted operands are passed separately (they come from
the conversion engine). -/
structure LaunchFuncOp where
  kernelModuleName : String
  kernelName : String
  asyncDependencyCount : Nat
  hasAsyncToken : Bool
  numKernelOperands : Nat
deriving DecidableEq, Repr

/-- `kTfWrapperLibaryLaunchHelperName` from the source (spelling kept). -/
def kTfWrapperLibaryLaunchHelperName : String := "tfKernelGenLaunchKernel"

/-- The fixed signature of the runtime entry point, as built at source lines
196-209: void(i8*, i8*, i8*, intptr x 6, i8**). -/
def tfLaunchHelperType : LLVMTy :=
  .funcOf .void
    (LLVMTyList.ofList
      [.ptr .i8, .ptr .i8, .ptr .i8, .iptr, .iptr, .iptr, .iptr, .iptr, .iptr,
       .ptr (.ptr .i8)])

/-- The module-scope symbols the rewrite pattern reads and writes: LLVM
globals (name, byte payload), LLVM function declarations (name, type) and
the nested GPU modules. -/
structure SymbolState where
  globals : List (String × List Nat)
  funcDecls : List (String × LLVMTy)
  gpuModules : List GPUModuleOp
deriving DecidableEq, Repr

/-- `SymbolTable::lookupNearestSymbolFrom<gpu::GPUModuleOp>`. -/
def lookupGPUModule (s : SymbolState) (n : String) : Option GPUModuleOp :=
  s.gpuModules.find? (fun m => m.name = n)

/-- `SymbolTable::lookupNearestSymbolFrom<LLVM::LLVMFuncOp>`. -/
def lookupFuncDecl (s : SymbolState) (n : String) : Option LLVMTy :=
  (s.funcDecls.find? (fun p => p.1 = n)).map Prod.snd

/-- `getAttrOfType<StringAttr>(key)`: looks the attribute up by name and then
requires it to be string-typed; an attribute of any other type yields `none`,
exactly like a missing attribute. -/
def getStringAttr (attrs : List (String × Attr)) (key : String) :
    Option (List Nat) :=
  match attrs.find? (fun p => p.1 = key) with
  | some (_, .str bytes) => some bytes
  | _ => none

/-- Modelled from the spec: `LLVM::createGlobalString` is outside the
excerpted source; §4.2 specifies it as `EmitOrReuse(name, payload)` — if a
constant with `name` already exists in the module it returns a handle to it
without re-emitting (keyed by name only, not by content), otherwise it
inserts a new constant at module scope.  The returned handle is the pointer
to the named global's first byte, represented here by the name. -/
def createGlobalString (s : SymbolState) (name : String) (payload : List Nat) :
    SymbolState × String :=
  if s.globals.any (fun g => g.1 = name) then (s, name)
  else ({ s with globals := (name, payload) :: s.globals }, name)

/-- The bytes of a string (used for the kernel-name constant payload). -/
def strBytes (s : String) : List Nat := s.toList.map Char.toNat

/-- `ArrayRef::take_back n`: the last `n` elements. -/
def takeBack (l : List Nat) (n : Nat) : List Nat := l.drop (l.length - n)

/-- Modelled from the spec: `LLVMTypeConverter::promoteOperands` is outside
the excerpted source; the spec (§4.3, C10 context) has it expand each
converted trailing kernel operand into one or more converted values, driven
by the type converter.  The expansion of a single operand is the parameter
`promoteOne`. -/
def promoteOperands (promoteOne : Nat → List Nat) (conv : List Nat) :
    List Nat :=
  conv.flatMap promoteOne

/-- One argument of the emitted call to the runtime entry point, tagged with
its provenance in the source: the enclosing function's context argument,
the address of a named global, a dimension operand taken from the converted
operand list, or the marshalled parameter array (represented by the list of
promoted values it holds, in order). -/
inductive CallArg where
  | contextArg (v : Nat)
  | globalRef (name : String)
  | dim (v : Nat)
  | params (marshalled : List Nat)
deriving DecidableEq, Repr

/-- The `llvm.call` emitted at source lines 215-220. -/
structure CallDesc where
  callee : String
  resultTy : LLVMTy
  args : List CallArg
deriving DecidableEq, Repr

/-- Failure modes of the rewrite: `notifyMatchFailure`, `emitOpError`
followed by `failure()`, and internal invariant violations (`assert`,
out-of-range accesses that the op verifier rules out upstream). -/
inductive RewriteError where
  | matchFailure (msg : String)
  | opError (opName : String) (msg : String)
  | assertFailed (msg : String)
deriving DecidableEq, Repr

/-- Source lines 192-214: look the runtime entry point up from the launch
op; if it is not declared yet, insert its declaration (with the fixed
signature) at the start of the module body. -/
def ensureLaunchHelper (s : SymbolState) : SymbolState :=
  match lookupFuncDecl s kTfWrapperLibaryLaunchHelperName with
  | some _ => s
  | none =>
    { s with
      funcDecls :=
        (kTfWrapperLibaryLaunchHelperName, tfLaunchHelperType) ::
          s.funcDecls }

/-- `ConvertLaunchFuncOpToTfRuntimeCallPattern::matchAndRewrite`
(source lines 138-224).  `fargs` are the entry-block arguments of the
enclosing `LLVM::LLVMFuncOp`; `operands` is the converted operand list
supplied by the conversion engine (async dependencies, six dimensions,
kernel operands). On success it returns the updated module symbols and the
emitted call; the launch op itself is erased by the caller (driver). -/
def matchAndRewrite (ann : String) (promoteOne : Nat → List Nat)
    (sym : SymbolState) (fargs : List Nat)
    (launch : LaunchFuncOp) (operands : List Nat) :
    Except RewriteError (SymbolState × CallDesc) :=
  if launch.asyncDependencyCount ≠ 0 ∨ launch.hasAsyncToken = true then
    .error (.matchFailure "Cannot convert with async dependency or result.")
  else
    match lookupGPUModule sym launch.kernelModuleName with
    | none => .error (.assertFailed "expected a kernel module")
    | some kernel_module =>
      match getStringAttr kernel_module.attrs ann with
      | none =>
        .error (.opError kernel_module.name
          ("missing " ++ ann ++ " attribute"))
      | some binary =>
        let p1 := createGlobalString sym (kernel_module.name ++ "_blob") binary
        let kernel_name_buffer := strBytes launch.kernelName ++ [0]
        let kernel_name_global_name :=
          kernel_module.name ++ "_" ++ launch.kernelName ++ "_kernel_name"
        let p2 :=
          createGlobalString p1.1 kernel_name_global_name kernel_name_buffer
        match fargs.get? 0 with
        | none => .error (.assertFailed "expected a context argument")
        | some context_arg =>
          let kernel_params :=
            promoteOperands promoteOne
              (takeBack operands launch.numKernelOperands)
          let sym3 := ensureLaunchHelper p2.1
          match operands.get? launch.asyncDependencyCount,
                operands.get? (launch.asyncDependencyCount + 1),
                operands.get? (launch.asyncDependencyCount + 2),
                operands.get? (launch.asyncDependencyCount + 3),
                operands.get? (launch.asyncDependencyCount + 4),
                operands.get? (launch.asyncDependencyCount + 5) with
          | some g0, some g1, some g2, some g3, some g4, some g5 =>
            .ok (sym3,
              { callee := kTfWrapperLibaryLaunchHelperName
                resultTy := .void
                args := [.contextArg context_arg, .globalRef p1.2,
                         .globalRef p2.2, .dim g0, .dim g1, .dim g2, .dim g3,
                         .dim g4, .dim g5, .params kernel_params] })
          | _, _, _, _, _, _ =>
            .error (.assertFailed "malformed launch operands")

/-- An address in the emitted code's memory: an allocation id and an offset.
Offsets index struct fields resp. array elements; distinct `llvm.alloca`
results never alias. -/
structure Addr where
  alloc : Nat
  off : Nat
deriving DecidableEq, Repr

/-- A runtime value of the emitted code: an integer (i32 constants), a
pointer into an allocation, or an abstract value (a promoted kernel
argument, opaque to the marshalling code). -/
inductive RVal where
  | intV (n : Nat)
  | ptrV (a : Addr)
  | sym (s : String) (i : Nat)
deriving DecidableEq, Repr

/-- The LLVM instructions emitted by `generateParamsArray`, with SSA value
ids as naturals.  `constI32 r v` is `llvm.mlir.constant`, `alloca r ty cnt`
allocates `cnt` (an SSA id) elements of `ty`, `gep r ty base idxs` is
`llvm.getelementptr` whose indices are SSA ids, `bitcast` type-erases a
pointer, `store v addr` stores SSA value `v` at the address SSA value
`addr` points to. -/
inductive Inst where
  | constI32 (res : Nat) (v : Nat)
  | alloca (res : Nat) (elemTy : LLVMTy) (count : Nat)
  | gep (res : Nat) (resTy : LLVMTy) (base : Nat) (idxs : List Nat)
  | bitcast (res : Nat) (ty : LLVMTy) (op : Nat)
  | store (v : Nat) (addr : Nat)
deriving DecidableEq, Repr

/-- The state of the emitted code: SSA environment, memory, and the next
fresh allocation id. -/
structure MState where
  env : Nat → Option RVal
  mem : Addr → Option RVal
  nextAlloc : Nat

/-- Binds SSA id `i` to `v`. -/
def setEnv (st : MState) (i : Nat) (v : RVal) : MState :=
  { st with env := fun j => if j = i then some v else st.env j }

/-- Writes `v` at address `a`. -/
def setMem (st : MState) (a : Addr) (v : RVal) : MState :=
  { st with mem := fun b => if b = a then some v else st.mem b }

/-- Reads SSA id `i` as an integer. -/
def evalNat (st : MState) (i : Nat) : Option Nat :=
  match st.env i with
  | some (.intV n) => some n
  | _ => none

/-- Reads a list of SSA ids as integers (the `getelementptr` indices). -/
def evalIdxs (st : MState) : List Nat → Option (List Nat)
  | [] => some []
  | i :: rest =>
    match evalNat st i, evalIdxs st rest with
    | some k, some ks => some (k :: ks)
    | _, _ => none

/-- One step of the emitted code.  i32 constants are truncated to 32 bits;
`gep` adds the (field resp. element) indices to the pointer offset, which on
the `[0, i]` struct access and the `[i]` array access emitted by
`generateParamsArray` yields field `i` of the struct resp. slot `i` of the
array; `bitcast` preserves the value. -/
def step (st : MState) : Inst → Option MState
  | .constI32 r v => some (setEnv st r (.intV (v % 2 ^ 32)))
  | .alloca r _ cnt =>
    match evalNat st cnt with
    | some _ =>
      some { setEnv st r (.ptrV ⟨st.nextAlloc, 0⟩) with
               nextAlloc := st.nextAlloc + 1 }
    | none => none
  | .gep r _ base idxs =>
    match st.env base, evalIdxs st idxs with
    | some (.ptrV a), some ks =>
      some (setEnv st r (.ptrV ⟨a.alloc, a.off + ks.sum⟩))
    | _, _ => none
  | .bitcast r _ x =>
    match st.env x with
    | some v => some (setEnv st r v)
    | none => none
  | .store v addr =>
    match st.env addr, st.env v with
    | some (.ptrV a), some w => some (setMem st a w)
    | _, _ => none

/-- Executes a straight-line instruction sequence. -/
def exec (l : List Inst) (st : MState) : Option MState :=
  match l with
  | [] => some st
  | i :: rest =>
    match step st i with
    | some st1 => exec rest st1
    | none => none

/-- The loop body of `generateParamsArray` (source lines 114-126) for the
argument with SSA id `aid` and type `aty` at position `i`: the index
constant, the `getelementptr` to struct field `i`, the store of the
argument, the `getelementptr` to array slot `i`, the type-erasing bitcast,
and the store of the erased field pointer.  `base` is the first fresh SSA
id; the body binds `base`..`base+3`. -/
def marshalBody (structPtr arrayPtr zeroId : Nat) (i : Nat)
    (aid : Nat) (aty : LLVMTy) (base : Nat) : List Inst :=
  [.constI32 base i,
   .gep (base + 1) (.ptr aty) structPtr [zeroId, base],
   .store aid (base + 1),
   .gep (base + 2) (.ptr (.ptr .i8)) arrayPtr [base],
   .bitcast (base + 3) (.ptr .i8) (base + 1),
   .store (base + 3) (base + 2)]

/-- The `llvm.enumerate` loop of `generateParamsArray`, over the promoted
arguments (SSA id, type) starting at position `i` with first fresh SSA id
`base`. -/
def marshalLoop (structPtr arrayPtr zeroId : Nat) :
    List (Nat × LLVMTy) → Nat → Nat → List Inst
  | [], _, _ => []
  | (aid, aty) :: rest, i, base =>
    marshalBody structPtr arrayPtr zeroId i aid aty base ++
      marshalLoop structPtr arrayPtr zeroId rest (i + 1) (base + 4)

/-- `ConvertLaunchFuncOpToTfRuntimeCallPattern::generateParamsArray`
(source lines 89-128), as the instruction sequence it emits.  `args` are the
promoted kernel arguments (SSA id, LLVM type); `f` is the first fresh SSA
id.  Emits: the constant 1, the alloca of one struct of the argument types,
the array-size constant, the alloca of `num_arguments` `i8*` slots, the
constant 0, then the per-argument loop.  Returns the instruction list and
the SSA id of `array_ptr`, the returned value. -/
def generateParamsArray (args : List (Nat × LLVMTy)) (f : Nat) :
    List Inst × Nat :=
  (Inst.constI32 f 1 ::
   Inst.alloca (f + 1) (.structOf (LLVMTyList.ofList (args.map Prod.snd))) f ::
   Inst.constI32 (f + 2) args.length ::
   Inst.alloca (f + 3) (.ptr .i8) (f + 2) ::
   Inst.constI32 (f + 4) 0 ::
   marshalLoop (f + 1) (f + 3) (f + 4) args 0 (f + 5),
   f + 3)

/-- A host-side function: its name, its entry-block arguments (the first is
the OpKernelContext after the surrounding pipeline's pre-lowering), the
launch instructions it still contains (each paired with the converted
operand list the conversion engine supplies), and the calls emitted so far. -/
structure HostFunc where
  fname : String
  fargs : List Nat
  launches : List (LaunchFuncOp × List Nat)
  calls : List CallDesc
deriving DecidableEq, Repr

/-- Modelled from the spec: the external fixpoint conversion engine
(`applyFullConversion`) is outside the excerpted source.  Per §4.6/§6 it
applies the registered rewrite rules until every illegal instruction is
rewritten, and reports failure when a rule rejects; for the instructions this
spec covers that means applying the launch rewrite rule to every launch
instruction, stopping at the first failure and leaving the module in the
partially-converted state produced so far (no rollback guarantee).
Returns the updated symbols, the launches still remaining, the calls emitted,
and the first error if any. -/
def convertLaunches (ann : String) (promoteOne : Nat → List Nat)
    (sym : SymbolState) (fargs : List Nat) :
    List (LaunchFuncOp × List Nat) →
      SymbolState × List (LaunchFuncOp × List Nat) × List CallDesc ×
        Option RewriteError
  | [] => (sym, [], [], none)
  | (l, ops) :: rest =>
    match matchAndRewrite ann promoteOne sym fargs l ops with
    | .error e => (sym, (l, ops) :: rest, [], some e)
    | .ok (sym1, call) =>
      let r := convertLaunches ann promoteOne sym1 fargs rest
      (r.1, r.2.1, call :: r.2.2.1, r.2.2.2)

/-- Modelled from the spec: the conversion engine run over every host
function of the module (continuation of `convertLaunches`). -/
def convertFuncs (ann : String) (promoteOne : Nat → List Nat)
    (sym : SymbolState) :
    List HostFunc → SymbolState × List HostFunc × Option RewriteError
  | [] => (sym, [], none)
  | f :: rest =>
    let r := convertLaunches ann promoteOne sym f.fargs f.launches
    let f1 : HostFunc :=
      { f with launches := r.2.1, calls := f.calls ++ r.2.2.1 }
    match r.2.2.2 with
    | some e => (r.1, f1 :: rest, some e)
    | none =>
      let r2 := convertFuncs ann promoteOne r.1 rest
      (r2.1, f1 :: r2.2.1, r2.2.2)

/-- The whole `ModuleOp` the pass runs on. -/
structure ModuleOp where
  globals : List (String × List Nat)
  funcDecls : List (String × LLVMTy)
  gpuModules : List GPUModuleOp
  hostFuncs : List HostFunc
deriving DecidableEq, Repr

/-- The outcome of one pass invocation: whether `signalPassFailure` was
called, and the module it leaves behind. -/
structure PassResult where
  passFailed : Bool
  result : ModuleOp
deriving DecidableEq, Repr

/-- `TFKernelToLLVMPass::runOnOperation` (source lines 238-276).  The source
calls `signalPassFailure()` when `applyFullConversion` fails but does NOT
return early: the final loop erasing every `gpu.module` runs in both the
success and the failure case. -/
def runOnOperation (ann : String) (promoteOne : Nat → List Nat)
    (m : ModuleOp) : PassResult :=
  let sym0 : SymbolState := ⟨m.globals, m.funcDecls, m.gpuModules⟩
  let r := convertFuncs ann promoteOne sym0 m.hostFuncs
  { passFailed := r.2.2.isSome
    result :=
      { globals := r.1.globals, funcDecls := r.1.funcDecls,
        gpuModules := [], hostFuncs := r.2.1 } }

/-- Number of module-level globals with name `n` (for the dedup invariant,
this must be at most 1 after a successful run). -/
def globalCount (s : SymbolState) (n : String) : Nat :=
  s.globals.countP (fun g => g.1 = n)

/-- Number of module-level function declarations with name `n`. -/
def declCount (s : SymbolState) (n : String) : Nat :=
  s.funcDecls.countP (fun g => g.1 = n)

/-- All (launch op, converted operands) pairs of the module's host
functions. -/
def allLaunchPairs (m : ModuleOp) : List (LaunchFuncOp × List Nat) :=
  (m.hostFuncs.map HostFunc.launches).flatten

/-- The initial machine state of the marshalling code: SSA ids `0..n-1` are
bound to the `n` promoted argument values, memory is empty and no
allocation has been made yet in this activation. -/
def mkInitState (vals : List RVal) : MState :=
  { env := fun i => vals.get? i, mem := fun _ => none, nextAlloc := 0 }

/-- The module of the failure scenario: one device module (carrying its
blob annotation) and a single host function with one asynchronous launch
instruction, so the conversion fails. -/
def asyncFailureModule : ModuleOp :=
  { globals := [], funcDecls := [],
    gpuModules := [⟨"K", [("binary", .str [171])]⟩],
    hostFuncs := [⟨"f", [9],
      [(⟨"K", "kern", 1, false, 2⟩, [0, 1, 2, 3, 4, 5, 6, 7, 8])], []⟩] }

/-- A module with two synchronous launch instructions referencing the same
device module `K`. -/
def twoLaunchModule : ModuleOp :=
  { globals := [], funcDecls := [],
    gpuModules := [⟨"K", [("binary", .str [171])]⟩],
    hostFuncs := [⟨"f", [9],
      [(⟨"K", "kern", 0, false, 2⟩, [1, 2, 3, 4, 5, 6, 7, 8]),
       (⟨"K", "kern", 0, false, 2⟩, [1, 2, 3, 4, 5, 6, 7, 8])], []⟩] }

/-- The module of the missing-annotation scenario: device module `"K"`
carries no attribute at all, and one synchronous launch targets it. -/
def missingAnnotationModule : ModuleOp :=
  { globals := [], funcDecls := [],
    gpuModules := [⟨"K", []⟩],
    hostFuncs := [⟨"f", [9],
      [(⟨"K", "kern", 0, false, 2⟩, [1, 2, 3, 4, 5, 6, 7, 8])], []⟩] }

/-- The module of the non-string-annotation scenario: device module `"K"`
carries an attribute under the configured key whose value is not a string
attribute. -/
def nonStringAnnotationModule : ModuleOp :=
  { globals := [], funcDecls := [],
    gpuModules := [⟨"K", [("binary", .nonStr)]⟩],
    hostFuncs := [⟨"f", [9],
      [(⟨"K", "kern", 0, false, 2⟩, [1, 2, 3, 4, 5, 6, 7, 8])], []⟩] }

/-- The initial machine state of the C10 witness: the promoted argument
SSA ids 7 and 8 are bound, memory empty, no allocations yet. -/
def c10State : MState :=
  { env := fun i =>
      if i = 7 then some (.sym "x" 7)
      else if i = 8 then some (.sym "x" 8)
      else none,
    mem := fun _ => none, nextAlloc := 0 }

theorem setEnv_env_self (st : MState) (i : Nat) (v : RVal) :
    (setEnv st i v).env i = some v := by
  simp [setEnv]

theorem setEnv_env_ne (st : MState) (i j : Nat) (v : RVal) (h : j ≠ i) :
    (setEnv st i v).env j = st.env j := by
  simp [setEnv, h]

theorem setEnv_mem (st : MState) (i : Nat) (v : RVal) :
    (setEnv st i v).mem = st.mem := rfl

theorem setEnv_nextAlloc (st : MState) (i : Nat) (v : RVal) :
    (setEnv st i v).nextAlloc = st.nextAlloc := rfl

theorem setMem_mem_self (st : MState) (a : Addr) (v : RVal) :
    (setMem st a v).mem a = some v := by
  simp [setMem]

theorem setMem_mem_ne (st : MState) (a b : Addr) (v : RVal) (h : b ≠ a) :
    (setMem st a v).mem b = st.mem b := by
  simp [setMem, h]

theorem setMem_env (st : MState) (a : Addr) (v : RVal) :
    (setMem st a v).env = st.env := rfl

theorem setMem_nextAlloc (st : MState) (a : Addr) (v : RVal) :
    (setMem st a v).nextAlloc = st.nextAlloc := rfl

theorem exec_append (l1 l2 : List Inst) (st : MState) :
    exec (l1 ++ l2) st =
      match exec l1 st with
      | some st1 => exec l2 st1
      | none => none := by
  induction l1 generalizing st with
  | nil => simp [exec]
  | cons a t ih =>
    simp only [List.cons_append, exec]
    cases step st a with
    | none => rfl
    | some st1 => exact ih st1

/-- Executing one iteration of the marshalling loop: the argument value is
stored into struct field `i` (allocation 0) and the type-erased field
pointer into array slot `i` (allocation 1); SSA ids below `base` and all
other addresses are untouched. -/
theorem marshalBody_exec (sp ap z aid : Nat) (aty : LLVMTy) (i base : Nat)
    (st : MState) (v : RVal)
    (hsp : st.env sp = some (.ptrV ⟨0, 0⟩))
    (hap : st.env ap = some (.ptrV ⟨1, 0⟩))
    (hz : st.env z = some (.intV 0))
    (h1 : sp < base) (h2 : ap < base) (h3 : z < base) (h4 : aid < base)
    (hv : st.env aid = some v)
    (hi : i < 2 ^ 31) :
    ∃ st2, exec (marshalBody sp ap z i aid aty base) st = some st2 ∧
      (∀ j, j < base → st2.env j = st.env j) ∧
      st2.nextAlloc = st.nextAlloc ∧
      (∀ a : Addr, a ≠ ⟨0, i⟩ → a ≠ ⟨1, i⟩ → st2.mem a = st.mem a) ∧
      st2.mem ⟨0, i⟩ = some v ∧
      st2.mem ⟨1, i⟩ = some (.ptrV ⟨0, i⟩) := by
  have hmod : i % 2 ^ 32 = i := Nat.mod_eq_of_lt (by omega)
  set s1 := setEnv st base (.intV i) with hs1
  set s2 := setEnv s1 (base + 1) (.ptrV ⟨0, i⟩) with hs2
  set s3 := setMem s2 ⟨0, i⟩ v with hs3
  set s4 := setEnv s3 (base + 2) (.ptrV ⟨1, i⟩) with hs4
  set s5 := setEnv s4 (base + 3) (.ptrV ⟨0, i⟩) with hs5
  set s6 := setMem s5 ⟨1, i⟩ (.ptrV ⟨0, i⟩) with hs6
  have e1 : step st (.constI32 base i) = some s1 := by
    simp only [step, hs1]
    rw [show i % 2 ^ 32 = i from hmod]
  have hsp1 : s1.env sp = some (.ptrV ⟨0, 0⟩) := by
    rw [hs1, setEnv_env_ne st base sp _ (Nat.ne_of_lt h1)]; exact hsp
  have hz1 : s1.env z = some (.intV 0) := by
    rw [hs1, setEnv_env_ne st base z _ (Nat.ne_of_lt h3)]; exact hz
  have hb1 : s1.env base = some (.intV i) := by
    rw [hs1]; exact setEnv_env_self st base _
  have e2 : step s1 (.gep (base + 1) (.ptr aty) sp [z, base]) = some s2 := by
    simp only [step, hsp1, evalIdxs, evalNat, hz1, hb1]
    simp [hs2]
  have hfp2 : s2.env (base + 1) = some (.ptrV ⟨0, i⟩) := by
    rw [hs2]; exact setEnv_env_self s1 (base + 1) _
  have hv2 : s2.env aid = some v := by
    rw [hs2, setEnv_env_ne s1 (base + 1) aid _ (by omega), hs1,
      setEnv_env_ne st base aid _ (Nat.ne_of_lt h4)]
    exact hv
  have e3 : step s2 (.store aid (base + 1)) = some s3 := by
    simp only [step, hfp2, hv2, hs3]
  have hap3 : s3.env ap = some (.ptrV ⟨1, 0⟩) := by
    rw [hs3, setMem_env, hs2, setEnv_env_ne s1 (base + 1) ap _ (by omega),
      hs1, setEnv_env_ne st base ap _ (Nat.ne_of_lt h2)]
    exact hap
  have hb3 : s3.env base = some (.intV i) := by
    rw [hs3, setMem_env, hs2, setEnv_env_ne s1 (base + 1) base _ (by omega)]
    exact hb1
  have e4 : step s3 (.gep (base + 2) (.ptr (.ptr .i8)) ap [base]) = some s4 := by
    simp only [step, hap3, evalIdxs, evalNat, hb3]
    simp [hs4]
  have hfp4 : s4.env (base + 1) = some (.ptrV ⟨0, i⟩) := by
    rw [hs4, setEnv_env_ne s3 (base + 2) (base + 1) _ (by omega), hs3,
      setMem_env]
    exact hfp2
  have e5 : step s4 (.bitcast (base + 3) (.ptr .i8) (base + 1)) = some s5 := by
    simp only [step, hfp4, hs5]
  have hep5 : s5.env (base + 2) = some (.ptrV ⟨1, i⟩) := by
    rw [hs5, setEnv_env_ne s4 (base + 3) (base + 2) _ (by omega), hs4]
    exact setEnv_env_self s3 (base + 2) _
  have hcast5 : s5.env (base + 3) = some (.ptrV ⟨0, i⟩) := by
    rw [hs5]; exact setEnv_env_self s4 (base + 3) _
  have e6 : step s5 (.store (base + 3) (base + 2)) = some s6 := by
    simp only [step, hep5, hcast5, hs6]
  refine ⟨s6, ?_, ?_, ?_, ?_, ?_, ?_⟩
  · simp only [marshalBody, exec, e1, e2, e3, e4, e5, e6]
  · intro j hj
    rw [hs6, setMem_env, hs5, setEnv_env_ne s4 (base + 3) j _ (by omega),
      hs4, setEnv_env_ne s3 (base + 2) j _ (by omega), hs3, setMem_env,
      hs2, setEnv_env_ne s1 (base + 1) j _ (by omega), hs1,
      setEnv_env_ne st base j _ (by omega)]
  · rw [hs6, setMem_nextAlloc, hs5, setEnv_nextAlloc, hs4, setEnv_nextAlloc,
      hs3, setMem_nextAlloc, hs2, setEnv_nextAlloc, hs1, setEnv_nextAlloc]
  · intro a ha0 ha1
    rw [hs6, setMem_mem_ne s5 ⟨1, i⟩ a _ ha1, hs5, setEnv_mem, hs4,
      setEnv_mem, hs3, setMem_mem_ne s2 ⟨0, i⟩ a _ ha0, hs2, setEnv_mem,
      hs1, setEnv_mem]
  · rw [hs6, setMem_mem_ne s5 ⟨1, i⟩ ⟨0, i⟩ _ (by simp), hs5, setEnv_mem,
      hs4, setEnv_mem, hs3]
    exact setMem_mem_self s2 ⟨0, i⟩ v
  · rw [hs6]; exact setMem_mem_self s5 ⟨1, i⟩ _

/-- Executing the whole marshalling loop starting at position `i`: every
argument value lands in struct field `i + k` (allocation 0) and the erased
pointer to that field in array slot `i + k` (allocation 1), in order; SSA
ids below `base`, addresses outside the two allocations, and addresses
outside the written offset range are untouched. -/
theorem marshalLoop_exec (sp ap z : Nat) :
    ∀ (args : List (Nat × LLVMTy)) (vals : List RVal) (i base : Nat)
      (st : MState),
    st.env sp = some (.ptrV ⟨0, 0⟩) →
    st.env ap = some (.ptrV ⟨1, 0⟩) →
    st.env z = some (.intV 0) →
    sp < base → ap < base → z < base →
    args.length = vals.length →
    (∀ k p, args.get? k = some p →
      p.1 < base ∧ st.env p.1 = vals.get? k) →
    i + args.length ≤ 2 ^ 31 →
    ∃ st2, exec (marshalLoop sp ap z args i base) st = some st2 ∧
      (∀ j, j < base → st2.env j = st.env j) ∧
      st2.nextAlloc = st.nextAlloc ∧
      (∀ a : Addr,
        (a.off < i ∨ i + args.length ≤ a.off ∨ (a.alloc ≠ 0 ∧ a.alloc ≠ 1)) →
        st2.mem a = st.mem a) ∧
      (∀ k, k < args.length →
        st2.mem ⟨0, i + k⟩ = vals.get? k ∧
        st2.mem ⟨1, i + k⟩ = some (.ptrV ⟨0, i + k⟩)) := by
  intro args
  induction args with
  | nil =>
    intro vals i base st hsp hap hz h1 h2 h3 _ _ _
    exact ⟨st, rfl, fun j _ => rfl, rfl, fun a _ => rfl, fun k hk => by
      simp at hk⟩
  | cons hd tl ih =>
    intro vals i base st hsp hap hz h1 h2 h3 hlen hargs hbound
    obtain ⟨aid, aty⟩ := hd
    cases vals with
    | nil => simp at hlen
    | cons v vtl =>
      have h0 := hargs 0 (aid, aty) rfl
      have haid : aid < base := h0.1
      have hvaid : st.env aid = some v := h0.2
      have hi : i < 2 ^ 31 := by
        simp only [List.length_cons] at hbound; omega
      obtain ⟨sB, heB, henvB, hallocB, hmemB, hm0B, hm1B⟩ :=
        marshalBody_exec sp ap z aid aty i base st v hsp hap hz h1 h2 h3
          haid hvaid hi
      have hlen2 : tl.length = vtl.length := by
        simpa using hlen
      obtain ⟨s2, he2, henv2, halloc2, hmem2, hslots2⟩ :=
        ih vtl (i + 1) (base + 4) sB
          (by rw [henvB sp (by omega)]; exact hsp)
          (by rw [henvB ap (by omega)]; exact hap)
          (by rw [henvB z (by omega)]; exact hz)
          (by omega) (by omega) (by omega)
          hlen2
          (by
            intro k p hp
            have hk := hargs (k + 1) p (by simpa using hp)
            exact ⟨by omega, by rw [henvB p.1 (by omega)]; simpa using hk.2⟩)
          (by simp only [List.length_cons] at hbound; omega)
      refine ⟨s2, ?_, ?_, ?_, ?_, ?_⟩
      · rw [marshalLoop, exec_append, heB]
        exact he2
      · intro j hj
        rw [henv2 j (by omega), henvB j (by omega)]
      · rw [halloc2, hallocB]
      · intro a ha
        obtain ⟨al, soff⟩ := a
        simp only [List.length_cons] at ha
        have ha2 : soff < i + 1 ∨ (i + 1) + tl.length ≤ soff ∨
            (al ≠ 0 ∧ al ≠ 1) := by
          rcases ha with h | h | h
          · exact Or.inl (by omega)
          · exact Or.inr (Or.inl (by omega))
          · exact Or.inr (Or.inr h)
        have hne0 : (⟨al, soff⟩ : Addr) ≠ ⟨0, i⟩ := by
          intro hEq
          simp only [Addr.mk.injEq] at hEq
          obtain ⟨rfl, rfl⟩ := hEq
          rcases ha with h | h | h
          · omega
          · omega
          · exact h.1 rfl
        have hne1 : (⟨al, soff⟩ : Addr) ≠ ⟨1, i⟩ := by
          intro hEq
          simp only [Addr.mk.injEq] at hEq
          obtain ⟨rfl, rfl⟩ := hEq
          rcases ha with h | h | h
          · omega
          · omega
          · exact h.2 rfl
        rw [hmem2 ⟨al, soff⟩ ha2, hmemB ⟨al, soff⟩ hne0 hne1]
      · intro k hk
        cases k with
        | zero =>
          refine ⟨?_, ?_⟩
          · rw [show i + 0 = i from rfl,
              hmem2 ⟨0, i⟩ (Or.inl (by show i < i + 1; omega)), hm0B]
            rfl
          · rw [show i + 0 = i from rfl,
              hmem2 ⟨1, i⟩ (Or.inl (by show i < i + 1; omega)), hm1B]
        | succ j =>
          have hj : j < tl.length := by
            simp only [List.length_cons] at hk; omega
          have hidx : i + (j + 1) = (i + 1) + j := by omega
          refine ⟨?_, ?_⟩
          · rw [hidx, (hslots2 j hj).1]
            rfl
          · rw [hidx]
            exact (hslots2 j hj).2

/-- Executing the full instruction sequence emitted by
`generateParamsArray` for promoted arguments `args` whose runtime values
are `vals` (hypotheses: SSA ids of the arguments are bound to `vals` and
lie below the first fresh id `f`; the activation frame has no prior
allocations): execution succeeds, the returned SSA value is the base
address of the pointer-array allocation (allocation 1, also valid when
`args = []`), the struct allocation (allocation 0) exists, slot `k` of the
array holds the type-erased address of struct field `k`, field `k` holds
the `k`-th argument value, and all other memory is untouched. -/
theorem generateParamsArray_exec (args : List (Nat × LLVMTy))
    (vals : List RVal) (f : Nat) (st : MState)
    (hlen : args.length = vals.length)
    (hargs : ∀ k p, args.get? k = some p →
      p.1 < f ∧ st.env p.1 = vals.get? k)
    (halloc : st.nextAlloc = 0)
    (hsmall : args.length ≤ 2 ^ 31) :
    ∃ st2, exec (generateParamsArray args f).1 st = some st2 ∧
      st2.env (generateParamsArray args f).2 = some (.ptrV ⟨1, 0⟩) ∧
      st2.env (f + 1) = some (.ptrV ⟨0, 0⟩) ∧
      (∀ k, k < args.length →
        st2.mem ⟨1, k⟩ = some (.ptrV ⟨0, k⟩) ∧
        st2.mem ⟨0, k⟩ = vals.get? k) ∧
      (∀ a : Addr, (args.length ≤ a.off ∨ (a.alloc ≠ 0 ∧ a.alloc ≠ 1)) →
        st2.mem a = st.mem a) := by
  set sA := setEnv st f (.intV 1) with hsA
  set sB : MState :=
    { setEnv sA (f + 1) (.ptrV ⟨0, 0⟩) with nextAlloc := 1 } with hsB
  set sC := setEnv sB (f + 2) (.intV args.length) with hsC
  set sD : MState :=
    { setEnv sC (f + 3) (.ptrV ⟨1, 0⟩) with nextAlloc := 2 } with hsD
  set sE := setEnv sD (f + 4) (.intV 0) with hsE
  have e1 : step st (.constI32 f 1) = some sA := by
    simp only [step, hsA]
    norm_num
  have e2 : step sA
      (.alloca (f + 1)
        (.structOf (LLVMTyList.ofList (args.map Prod.snd))) f) = some sB := by
    have hf : evalNat sA f = some 1 := by
      simp only [evalNat, hsA, setEnv_env_self]
    have hnA : sA.nextAlloc = 0 := by rw [hsA, setEnv_nextAlloc, halloc]
    simp only [step, hf, hnA, hsB]
  have e3 : step sB (.constI32 (f + 2) args.length) = some sC := by
    simp only [step, hsC]
    rw [Nat.mod_eq_of_lt (by omega)]
  have e4 : step sC (.alloca (f + 3) (.ptr .i8) (f + 2)) = some sD := by
    have hf : evalNat sC (f + 2) = some args.length := by
      simp only [evalNat, hsC, setEnv_env_self]
    have hnC : sC.nextAlloc = 1 := by rw [hsC, setEnv_nextAlloc, hsB]
    simp only [step, hf, hnC, hsD]
  have e5 : step sD (.constI32 (f + 4) 0) = some sE := by
    simp only [step, hsE]
    norm_num
  have hBenv : sB.env = (setEnv sA (f + 1) (.ptrV ⟨0, 0⟩)).env := by
    rw [hsB]
  have hDenv : sD.env = (setEnv sC (f + 3) (.ptrV ⟨1, 0⟩)).env := by
    rw [hsD]
  have hsp : sE.env (f + 1) = some (.ptrV ⟨0, 0⟩) := by
    rw [hsE, setEnv_env_ne sD (f + 4) (f + 1) _ (by omega), hDenv,
      setEnv_env_ne sC (f + 3) (f + 1) _ (by omega), hsC,
      setEnv_env_ne sB (f + 2) (f + 1) _ (by omega), hBenv]
    exact setEnv_env_self sA (f + 1) _
  have hap : sE.env (f + 3) = some (.ptrV ⟨1, 0⟩) := by
    rw [hsE, setEnv_env_ne sD (f + 4) (f + 3) _ (by omega), hDenv]
    exact setEnv_env_self sC (f + 3) _
  have hz : sE.env (f + 4) = some (.intV 0) := by
    rw [hsE]; exact setEnv_env_self sD (f + 4) _
  have hEmem : sE.mem = st.mem := rfl
  have hEargs : ∀ k p, args.get? k = some p →
      p.1 < f + 5 ∧ sE.env p.1 = vals.get? k := by
    intro k p hp
    have h := hargs k p hp
    refine ⟨by omega, ?_⟩
    rw [hsE, setEnv_env_ne sD (f + 4) p.1 _ (by omega), hDenv,
      setEnv_env_ne sC (f + 3) p.1 _ (by omega), hsC,
      setEnv_env_ne sB (f + 2) p.1 _ (by omega), hBenv,
      setEnv_env_ne sA (f + 1) p.1 _ (by omega), hsA,
      setEnv_env_ne st f p.1 _ (by omega)]
    exact h.2
  obtain ⟨st2, he2, henv2, _, hmem2, hslots2⟩ :=
    marshalLoop_exec (f + 1) (f + 3) (f + 4) args vals 0 (f + 5) sE
      hsp hap hz (by omega) (by omega) (by omega) hlen hEargs
      (by omega)
  refine ⟨st2, ?_, ?_, ?_, ?_, ?_⟩
  · simp only [generateParamsArray, exec, e1, e2, e3, e4, e5]
    exact he2
  · show st2.env (f + 3) = some (.ptrV ⟨1, 0⟩)
    rw [henv2 (f + 3) (by omega)]
    exact hap
  · rw [henv2 (f + 1) (by omega)]
    exact hsp
  · intro k hk
    have h := hslots2 k hk
    rw [Nat.zero_add] at h
    exact ⟨h.2, h.1⟩
  · intro a ha
    have h := hmem2 a (by
      rcases ha with h | h
      · exact Or.inr (Or.inl (by omega))
      · exact Or.inr (Or.inr h))
    rw [h, hEmem]

theorem createGlobalString_snd (s : SymbolState) (n : String) (b : List Nat) :
    (createGlobalString s n b).2 = n := by
  unfold createGlobalString
  split <;> rfl

theorem createGlobalString_gpuModules (s : SymbolState) (n : String)
    (b : List Nat) :
    (createGlobalString s n b).1.gpuModules = s.gpuModules := by
  unfold createGlobalString
  split <;> rfl

theorem createGlobalString_funcDecls (s : SymbolState) (n : String)
    (b : List Nat) :
    (createGlobalString s n b).1.funcDecls = s.funcDecls := by
  unfold createGlobalString
  split <;> rfl

theorem ensureLaunchHelper_gpuModules (s : SymbolState) :
    (ensureLaunchHelper s).gpuModules = s.gpuModules := by
  unfold ensureLaunchHelper
  split <;> rfl

theorem ensureLaunchHelper_globals (s : SymbolState) :
    (ensureLaunchHelper s).globals = s.globals := by
  unfold ensureLaunchHelper
  split <;> rfl

/-- Inversion of a successful launch rewrite: the launch was synchronous,
its kernel module was found and carried a string blob attribute, the final
symbols are obtained by the two global emissions followed by the entry-point
ensure, and the emitted call has exactly the recorded shape. -/
theorem matchAndRewrite_ok_inv (ann : String) (p : Nat → List Nat)
    (sym : SymbolState) (fargs : List Nat) (launch : LaunchFuncOp)
    (operands : List Nat) (sym2 : SymbolState) (call : CallDesc)
    (h : matchAndRewrite ann p sym fargs launch operands = .ok (sym2, call)) :
    ∃ km binary c g0 g1 g2 g3 g4 g5,
      launch.asyncDependencyCount = 0 ∧ launch.hasAsyncToken = false ∧
      lookupGPUModule sym launch.kernelModuleName = some km ∧
      getStringAttr km.attrs ann = some binary ∧
      fargs.get? 0 = some c ∧
      operands.get? 0 = some g0 ∧ operands.get? 1 = some g1 ∧
      operands.get? 2 = some g2 ∧ operands.get? 3 = some g3 ∧
      operands.get? 4 = some g4 ∧ operands.get? 5 = some g5 ∧
      sym2 = ensureLaunchHelper
        (createGlobalString
          (createGlobalString sym (km.name ++ "_blob") binary).1
          (km.name ++ "_" ++ launch.kernelName ++ "_kernel_name")
          (strBytes launch.kernelName ++ [0])).1 ∧
      call =
        { callee := kTfWrapperLibaryLaunchHelperName
          resultTy := .void
          args := [.contextArg c, .globalRef (km.name ++ "_blob"),
                   .globalRef
                     (km.name ++ "_" ++ launch.kernelName ++ "_kernel_name"),
                   .dim g0, .dim g1, .dim g2, .dim g3, .dim g4, .dim g5,
                   .params (promoteOperands p
                     (takeBack operands launch.numKernelOperands))] } := by
  unfold matchAndRewrite at h
  split at h
  · exact absurd h (by simp)
  next hasync =>
    have hcnt : launch.asyncDependencyCount = 0 := by
      by_contra hne
      exact hasync (Or.inl hne)
    have htok : launch.hasAsyncToken = false := by
      by_contra hne
      exact hasync (Or.inr (by simpa using hne))
    rw [hcnt] at h
    split at h
    · exact absurd h (by simp)
    next km hkm =>
      split at h
      · exact absurd h (by simp)
      next binary hbin =>
        split at h
        · exact absurd h (by simp)
        next c hc =>
          split at h
          next g0 g1 g2 g3 g4 g5 hg0 hg1 hg2 hg3 hg4 hg5 =>
            refine ⟨km, binary, c, g0, g1, g2, g3, g4, g5, hcnt, htok, hkm,
              hbin, hc, by simpa using hg0, by simpa using hg1,
              by simpa using hg2, by simpa using hg3, by simpa using hg4,
              by simpa using hg5, ?_, ?_⟩
            · cases h
              rfl
            · cases h
              simp [createGlobalString_snd]
          · exact absurd h (by simp)

theorem globalCount_createGlobalString_ge (s : SymbolState) (n : String)
    (b : List Nat) (q : String) :
    globalCount s q ≤ globalCount (createGlobalString s n b).1 q := by
  unfold createGlobalString globalCount
  split
  · exact le_refl _
  · rw [List.countP_cons]
    exact Nat.le_add_right _ _

theorem globalCount_createGlobalString_le (s : SymbolState) (n : String)
    (b : List Nat) (q : String) :
    globalCount (createGlobalString s n b).1 q ≤ max (globalCount s q) 1 := by
  unfold createGlobalString globalCount
  split
  · exact le_max_left _ _
  next hany =>
    rw [List.countP_cons]
    by_cases hq : q = n
    · subst hq
      have h0 : s.globals.countP (fun g => decide (g.1 = q)) = 0 := by
        rw [List.countP_eq_zero]
        intro a ha
        have hfalse : (s.globals.any fun g => decide (g.1 = q)) = false := by
          revert hany
          cases s.globals.any fun g => decide (g.1 = q) <;> simp
        have := List.any_eq_false.mp hfalse a ha
        simpa using this
      simp only [h0]
      split <;> omega
    · have hq2 : (decide ((n, b).1 = q)) = false := by
        simp only [decide_eq_false_iff_not]
        exact fun hEq => hq hEq.symm
      rw [hq2]
      simp only [Bool.false_eq_true, if_false, Nat.add_zero]
      exact le_max_left _ _

theorem globalCount_createGlobalString_self (s : SymbolState) (n : String)
    (b : List Nat) :
    1 ≤ globalCount (createGlobalString s n b).1 n := by
  unfold createGlobalString globalCount
  split
  next hany =>
    obtain ⟨a, ha, hpa⟩ := List.any_eq_true.mp hany
    have h1 : 0 < s.globals.countP (fun g => decide (g.1 = n)) :=
      List.countP_pos_iff.mpr ⟨a, ha, hpa⟩
    exact h1
  next =>
    rw [List.countP_cons]
    simp

theorem globalCount_ensureLaunchHelper (s : SymbolState) (q : String) :
    globalCount (ensureLaunchHelper s) q = globalCount s q := by
  unfold globalCount
  rw [ensureLaunchHelper_globals]

theorem declCount_createGlobalString (s : SymbolState) (n : String)
    (b : List Nat) (q : String) :
    declCount (createGlobalString s n b).1 q = declCount s q := by
  unfold declCount
  rw [createGlobalString_funcDecls]

theorem declCount_ensureLaunchHelper_ge (s : SymbolState) (q : String) :
    declCount s q ≤ declCount (ensureLaunchHelper s) q := by
  unfold ensureLaunchHelper declCount
  split
  · exact le_refl _
  · rw [List.countP_cons]
    exact Nat.le_add_right _ _

theorem declCount_ensureLaunchHelper_le (s : SymbolState) (q : String) :
    declCount (ensureLaunchHelper s) q ≤ max (declCount s q) 1 := by
  unfold ensureLaunchHelper declCount
  split
  · exact le_max_left _ _
  next hnone =>
    rw [List.countP_cons]
    by_cases hq : q = kTfWrapperLibaryLaunchHelperName
    · subst hq
      have h0 : s.funcDecls.countP
          (fun g => decide (g.1 = kTfWrapperLibaryLaunchHelperName)) = 0 := by
        rw [List.countP_eq_zero]
        intro a ha
        intro hpa
        have ha2 : a.1 = kTfWrapperLibaryLaunchHelperName := by simpa using hpa
        have hne : s.funcDecls.find?
            (fun p => p.1 = kTfWrapperLibaryLaunchHelperName) ≠ none := by
          intro hfind
          have := List.find?_eq_none.mp hfind a ha
          simp [ha2] at this
        unfold lookupFuncDecl at hnone
        cases hfind : s.funcDecls.find?
            (fun p => p.1 = kTfWrapperLibaryLaunchHelperName) with
        | none => exact hne hfind
        | some pr => rw [hfind] at hnone; simp at hnone
      simp only [h0]
      split <;> omega
    · have hq2 : (decide
          ((kTfWrapperLibaryLaunchHelperName, tfLaunchHelperType).1 = q)) =
          false := by
        simp only [decide_eq_false_iff_not]
        exact fun hEq => hq hEq.symm
      rw [hq2]
      simp only [Bool.false_eq_true, if_false, Nat.add_zero]
      exact le_max_left _ _

theorem declCount_ensureLaunchHelper_self (s : SymbolState) :
    1 ≤ declCount (ensureLaunchHelper s) kTfWrapperLibaryLaunchHelperName := by
  unfold ensureLaunchHelper declCount
  split
  next t hsome =>
    unfold lookupFuncDecl at hsome
    cases hfind : s.funcDecls.find?
        (fun p => p.1 = kTfWrapperLibaryLaunchHelperName) with
    | none => rw [hfind] at hsome; simp at hsome
    | some pr =>
      have hmem := List.mem_of_find?_eq_some hfind
      have hpred := List.find?_some hfind
      exact List.countP_pos_iff.mpr ⟨pr, hmem, hpred⟩
  next =>
    rw [List.countP_cons]
    simp

theorem matchAndRewrite_ok_gpuModules (ann : String) (p : Nat → List Nat)
    (sym : SymbolState) (fargs : List Nat) (launch : LaunchFuncOp)
    (operands : List Nat) (sym2 : SymbolState) (call : CallDesc)
    (h : matchAndRewrite ann p sym fargs launch operands = .ok (sym2, call)) :
    sym2.gpuModules = sym.gpuModules := by
  obtain ⟨km, binary, c, g0, g1, g2, g3, g4, g5, _, _, _, _, _, _, _, _, _,
    _, _, hsym, _⟩ := matchAndRewrite_ok_inv ann p sym fargs launch operands
      sym2 call h
  rw [hsym, ensureLaunchHelper_gpuModules, createGlobalString_gpuModules,
    createGlobalString_gpuModules]

theorem matchAndRewrite_ok_globalCount (ann : String) (p : Nat → List Nat)
    (sym : SymbolState) (fargs : List Nat) (launch : LaunchFuncOp)
    (operands : List Nat) (sym2 : SymbolState) (call : CallDesc) (q : String)
    (h : matchAndRewrite ann p sym fargs launch operands = .ok (sym2, call)) :
    globalCount sym q ≤ globalCount sym2 q ∧
    globalCount sym2 q ≤ max (globalCount sym q) 1 := by
  obtain ⟨km, binary, c, g0, g1, g2, g3, g4, g5, _, _, _, _, _, _, _, _, _,
    _, _, hsym, _⟩ := matchAndRewrite_ok_inv ann p sym fargs launch operands
      sym2 call h
  rw [hsym, globalCount_ensureLaunchHelper]
  constructor
  · exact le_trans (globalCount_createGlobalString_ge sym _ _ q)
      (globalCount_createGlobalString_ge _ _ _ q)
  · refine le_trans (globalCount_createGlobalString_le _ _ _ q) ?_
    refine max_le ?_ (le_max_right _ _)
    exact le_trans (globalCount_createGlobalString_le sym _ _ q)
      (max_le (le_max_left _ _) (le_max_right _ _))

theorem matchAndRewrite_ok_declCount (ann : String) (p : Nat → List Nat)
    (sym : SymbolState) (fargs : List Nat) (launch : LaunchFuncOp)
    (operands : List Nat) (sym2 : SymbolState) (call : CallDesc) (q : String)
    (h : matchAndRewrite ann p sym fargs launch operands = .ok (sym2, call)) :
    declCount sym q ≤ declCount sym2 q ∧
    declCount sym2 q ≤ max (declCount sym q) 1 := by
  obtain ⟨km, binary, c, g0, g1, g2, g3, g4, g5, _, _, _, _, _, _, _, _, _,
    _, _, hsym, _⟩ := matchAndRewrite_ok_inv ann p sym fargs launch operands
      sym2 call h
  rw [hsym]
  have hd : declCount (createGlobalString
      (createGlobalString sym (km.name ++ "_blob") binary).1
      (km.name ++ "_" ++ launch.kernelName ++ "_kernel_name")
      (strBytes launch.kernelName ++ [0])).1 q = declCount sym q := by
    rw [declCount_createGlobalString, declCount_createGlobalString]
  constructor
  · rw [← hd]
    exact declCount_ensureLaunchHelper_ge _ q
  · rw [← hd]
    exact declCount_ensureLaunchHelper_le _ q

/-- A successful rewrite of a launch op referencing module `K` leaves at
least one `K_blob` global and at least one entry-point declaration. -/
theorem matchAndRewrite_ok_created (ann : String) (p : Nat → List Nat)
    (sym : SymbolState) (fargs : List Nat) (launch : LaunchFuncOp)
    (operands : List Nat) (sym2 : SymbolState) (call : CallDesc)
    (h : matchAndRewrite ann p sym fargs launch operands = .ok (sym2, call)) :
    1 ≤ globalCount sym2 (launch.kernelModuleName ++ "_blob") ∧
    1 ≤ declCount sym2 kTfWrapperLibaryLaunchHelperName := by
  obtain ⟨km, binary, c, g0, g1, g2, g3, g4, g5, _, _, hkm, _, _, _, _, _, _,
    _, _, hsym, _⟩ := matchAndRewrite_ok_inv ann p sym fargs launch operands
      sym2 call h
  have hname : km.name = launch.kernelModuleName := by
    unfold lookupGPUModule at hkm
    have := List.find?_some hkm
    simpa using this
  rw [hsym]
  constructor
  · rw [globalCount_ensureLaunchHelper, ← hname]
    exact le_trans (globalCount_createGlobalString_self sym _ binary)
      (globalCount_createGlobalString_ge _ _ _ _)
  · exact declCount_ensureLaunchHelper_self _

theorem convertLaunches_gpuModules (ann : String) (p : Nat → List Nat) :
    ∀ (L : List (LaunchFuncOp × List Nat)) (sym : SymbolState)
      (fargs : List Nat),
      (convertLaunches ann p sym fargs L).1.gpuModules = sym.gpuModules := by
  intro L
  induction L with
  | nil => intro sym fargs; rfl
  | cons hd tl ih =>
    intro sym fargs
    obtain ⟨l, ops⟩ := hd
    cases hm : matchAndRewrite ann p sym fargs l ops with
    | error e => simp [convertLaunches, hm]
    | ok r =>
      obtain ⟨sym1, call⟩ := r
      simp only [convertLaunches, hm]
      rw [ih sym1 fargs,
        matchAndRewrite_ok_gpuModules ann p sym fargs l ops sym1 call hm]

theorem convertLaunches_mu (ann : String) (p : Nat → List Nat)
    (μ : SymbolState → Nat)
    (hμ : ∀ (sym : SymbolState) (fargs : List Nat) (l : LaunchFuncOp)
      (ops : List Nat) (sym2 : SymbolState) (call : CallDesc),
      matchAndRewrite ann p sym fargs l ops = .ok (sym2, call) →
      μ sym ≤ μ sym2 ∧ μ sym2 ≤ max (μ sym) 1) :
    ∀ (L : List (LaunchFuncOp × List Nat)) (sym : SymbolState)
      (fargs : List Nat),
      μ sym ≤ μ (convertLaunches ann p sym fargs L).1 ∧
      μ (convertLaunches ann p sym fargs L).1 ≤ max (μ sym) 1 := by
  intro L
  induction L with
  | nil => intro sym fargs; exact ⟨le_refl _, le_max_left _ _⟩
  | cons hd tl ih =>
    intro sym fargs
    obtain ⟨l, ops⟩ := hd
    cases hm : matchAndRewrite ann p sym fargs l ops with
    | error e =>
      simp only [convertLaunches, hm]
      exact ⟨le_refl _, le_max_left _ _⟩
    | ok r =>
      obtain ⟨sym1, call⟩ := r
      simp only [convertLaunches, hm]
      have h1 := hμ sym fargs l ops sym1 call hm
      have h2 := ih sym1 fargs
      exact ⟨le_trans h1.1 h2.1,
        le_trans h2.2 (max_le h1.2 (le_max_right _ _))⟩

theorem convertLaunches_mu_created (ann : String) (p : Nat → List Nat)
    (μ : SymbolState → Nat)
    (hμ : ∀ (sym : SymbolState) (fargs : List Nat) (l : LaunchFuncOp)
      (ops : List Nat) (sym2 : SymbolState) (call : CallDesc),
      matchAndRewrite ann p sym fargs l ops = .ok (sym2, call) →
      μ sym ≤ μ sym2 ∧ μ sym2 ≤ max (μ sym) 1)
    (l : LaunchFuncOp) (ops : List Nat)
    (hcr : ∀ (sym : SymbolState) (fargs : List Nat) (sym2 : SymbolState)
      (call : CallDesc),
      matchAndRewrite ann p sym fargs l ops = .ok (sym2, call) →
      1 ≤ μ sym2) :
    ∀ (L : List (LaunchFuncOp × List Nat)) (sym : SymbolState)
      (fargs : List Nat), (l, ops) ∈ L →
      (convertLaunches ann p sym fargs L).2.2.2 = none →
      1 ≤ μ (convertLaunches ann p sym fargs L).1 := by
  intro L
  induction L with
  | nil => intro sym fargs hmem; simp at hmem
  | cons hd tl ih =>
    intro sym fargs hmem herr
    obtain ⟨l0, ops0⟩ := hd
    cases hm : matchAndRewrite ann p sym fargs l0 ops0 with
    | error e => simp [convertLaunches, hm] at herr
    | ok r =>
      obtain ⟨sym1, call⟩ := r
      simp only [convertLaunches, hm] at herr ⊢
      rcases List.mem_cons.mp hmem with heq | hmem2
      · have hl : l = l0 := congrArg Prod.fst heq
        have ho : ops = ops0 := congrArg Prod.snd heq
        subst hl
        subst ho
        have h1 := hcr sym fargs sym1 call hm
        exact le_trans h1 (convertLaunches_mu ann p μ hμ tl sym1 fargs).1
      · exact ih sym1 fargs hmem2 herr

theorem convertFuncs_gpuModules (ann : String) (p : Nat → List Nat) :
    ∀ (fs : List HostFunc) (sym : SymbolState),
      (convertFuncs ann p sym fs).1.gpuModules = sym.gpuModules := by
  intro fs
  induction fs with
  | nil => intro sym; rfl
  | cons f0 rest ih =>
    intro sym
    simp only [convertFuncs]
    cases herr : (convertLaunches ann p sym f0.fargs f0.launches).2.2.2 with
    | some e =>
      simp only
      exact convertLaunches_gpuModules ann p f0.launches sym f0.fargs
    | none =>
      simp only
      rw [ih _, convertLaunches_gpuModules ann p f0.launches sym f0.fargs]

theorem convertFuncs_mu (ann : String) (p : Nat → List Nat)
    (μ : SymbolState → Nat)
    (hμ : ∀ (sym : SymbolState) (fargs : List Nat) (l : LaunchFuncOp)
      (ops : List Nat) (sym2 : SymbolState) (call : CallDesc),
      matchAndRewrite ann p sym fargs l ops = .ok (sym2, call) →
      μ sym ≤ μ sym2 ∧ μ sym2 ≤ max (μ sym) 1) :
    ∀ (fs : List HostFunc) (sym : SymbolState),
      μ sym ≤ μ (convertFuncs ann p sym fs).1 ∧
      μ (convertFuncs ann p sym fs).1 ≤ max (μ sym) 1 := by
  intro fs
  induction fs with
  | nil => intro sym; exact ⟨le_refl _, le_max_left _ _⟩
  | cons f0 rest ih =>
    intro sym
    simp only [convertFuncs]
    have h1 := convertLaunches_mu ann p μ hμ f0.launches sym f0.fargs
    cases herr : (convertLaunches ann p sym f0.fargs f0.launches).2.2.2 with
    | some e => exact h1
    | none =>
      have h2 := ih (convertLaunches ann p sym f0.fargs f0.launches).1
      exact ⟨le_trans h1.1 h2.1,
        le_trans h2.2 (max_le h1.2 (le_max_right _ _))⟩

theorem convertFuncs_mu_created (ann : String) (p : Nat → List Nat)
    (μ : SymbolState → Nat)
    (hμ : ∀ (sym : SymbolState) (fargs : List Nat) (l : LaunchFuncOp)
      (ops : List Nat) (sym2 : SymbolState) (call : CallDesc),
      matchAndRewrite ann p sym fargs l ops = .ok (sym2, call) →
      μ sym ≤ μ sym2 ∧ μ sym2 ≤ max (μ sym) 1)
    (l : LaunchFuncOp) (ops : List Nat)
    (hcr : ∀ (sym : SymbolState) (fargs : List Nat) (sym2 : SymbolState)
      (call : CallDesc),
      matchAndRewrite ann p sym fargs l ops = .ok (sym2, call) →
      1 ≤ μ sym2) :
    ∀ (fs : List HostFunc) (sym : SymbolState),
      (∃ f ∈ fs, (l, ops) ∈ f.launches) →
      (convertFuncs ann p sym fs).2.2 = none →
      1 ≤ μ (convertFuncs ann p sym fs).1 := by
  intro fs
  induction fs with
  | nil => intro sym hmem; simp at hmem
  | cons f0 rest ih =>
    intro sym hmem herr
    simp only [convertFuncs] at herr ⊢
    cases hstep : (convertLaunches ann p sym f0.fargs f0.launches).2.2.2 with
    | some e =>
      rw [hstep] at herr
      simp at herr
    | none =>
      rw [hstep] at herr
      simp only at herr
      obtain ⟨f, hf, hfl⟩ := hmem
      rcases List.mem_cons.mp hf with rfl | hf2
      · have h1 := convertLaunches_mu_created ann p μ hμ l ops hcr
          f.launches sym f.fargs hfl hstep
        exact le_trans h1 (convertFuncs_mu ann p μ hμ rest _).1
      · exact ih _ ⟨f, hf2, hfl⟩ herr

/-- If some launch in the work list is rejected by the rewrite rule under
every module-symbol state with the given GPU modules, the conversion reports
an error. -/
theorem convertLaunches_stuck (ann : String) (p : Nat → List Nat)
    (l : LaunchFuncOp) (ops : List Nat) (G : List GPUModuleOp)
    (hrej : ∀ (s : SymbolState) (fargs : List Nat), s.gpuModules = G →
      ∀ r, matchAndRewrite ann p s fargs l ops ≠ .ok r) :
    ∀ (L : List (LaunchFuncOp × List Nat)) (sym : SymbolState)
      (fargs : List Nat), (l, ops) ∈ L → sym.gpuModules = G →
      (convertLaunches ann p sym fargs L).2.2.2.isSome = true := by
  intro L
  induction L with
  | nil => intro sym fargs hmem; simp at hmem
  | cons hd tl ih =>
    intro sym fargs hmem hG
    obtain ⟨l0, ops0⟩ := hd
    cases hm : matchAndRewrite ann p sym fargs l0 ops0 with
    | error e => simp [convertLaunches, hm]
    | ok r =>
      obtain ⟨sym1, call⟩ := r
      rcases List.mem_cons.mp hmem with heq | hmem2
      · have hl : l = l0 := congrArg Prod.fst heq
        have ho : ops = ops0 := congrArg Prod.snd heq
        subst hl
        subst ho
        exact absurd hm (hrej sym fargs hG _)
      · simp only [convertLaunches, hm]
        refine ih sym1 fargs hmem2 ?_
        rw [matchAndRewrite_ok_gpuModules ann p sym fargs l0 ops0 sym1
          call hm, hG]

/-- Module-level version of `convertLaunches_stuck`. -/
theorem convertFuncs_stuck (ann : String) (p : Nat → List Nat)
    (l : LaunchFuncOp) (ops : List Nat) (G : List GPUModuleOp)
    (hrej : ∀ (s : SymbolState) (fargs : List Nat), s.gpuModules = G →
      ∀ r, matchAndRewrite ann p s fargs l ops ≠ .ok r) :
    ∀ (fs : List HostFunc) (sym : SymbolState),
      (∃ f ∈ fs, (l, ops) ∈ f.launches) → sym.gpuModules = G →
      (convertFuncs ann p sym fs).2.2.isSome = true := by
  intro fs
  induction fs with
  | nil => intro sym hmem; simp at hmem
  | cons f0 rest ih =>
    intro sym hmem hG
    simp only [convertFuncs]
    cases hstep : (convertLaunches ann p sym f0.fargs f0.launches).2.2.2 with
    | some e => rfl
    | none =>
      obtain ⟨f, hf, hfl⟩ := hmem
      rcases List.mem_cons.mp hf with rfl | hf2
      · have := convertLaunches_stuck ann p l ops G hrej f.launches sym
          f.fargs hfl hG
        rw [hstep] at this
        simp at this
      · refine ih _ ⟨f, hf2, hfl⟩ ?_
        rw [convertLaunches_gpuModules ann p f0.launches sym f0.fargs, hG]

/-- On a successful conversion no launch instruction remains in the work
list's output. -/
theorem convertLaunches_none_rem (ann : String) (p : Nat → List Nat) :
    ∀ (L : List (LaunchFuncOp × List Nat)) (sym : SymbolState)
      (fargs : List Nat),
      (convertLaunches ann p sym fargs L).2.2.2 = none →
      (convertLaunches ann p sym fargs L).2.1 = [] := by
  intro L
  induction L with
  | nil => intro sym fargs _; rfl
  | cons hd tl ih =>
    intro sym fargs herr
    obtain ⟨l0, ops0⟩ := hd
    cases hm : matchAndRewrite ann p sym fargs l0 ops0 with
    | error e => simp [convertLaunches, hm] at herr
    | ok r =>
      obtain ⟨sym1, call⟩ := r
      simp only [convertLaunches, hm] at herr ⊢
      exact ih sym1 fargs herr

/-- On a successful conversion every output host function is launch-free. -/
theorem convertFuncs_none_launches (ann : String) (p : Nat → List Nat) :
    ∀ (fs : List HostFunc) (sym : SymbolState),
      (convertFuncs ann p sym fs).2.2 = none →
      ∀ f1 ∈ (convertFuncs ann p sym fs).2.1, f1.launches = [] := by
  intro fs
  induction fs with
  | nil => intro sym _ f1 hf1; simp [convertFuncs] at hf1
  | cons f0 rest ih =>
    intro sym herr f1 hf1
    simp only [convertFuncs] at herr hf1
    cases hstep : (convertLaunches ann p sym f0.fargs f0.launches).2.2.2 with
    | some e =>
      rw [hstep] at herr
      simp at herr
    | none =>
      rw [hstep] at herr hf1
      simp only at herr hf1
      rcases List.mem_cons.mp hf1 with rfl | hf2
      · show (convertLaunches ann p sym f0.fargs f0.launches).2.1 = []
        exact convertLaunches_none_rem ann p f0.launches sym f0.fargs hstep
      · exact ih _ herr f1 hf2

/-- The kernel-name global and the blob global of the same device module
never collide (their suffixes have different lengths). -/
theorem kernelNameGlobal_ne_blobName (mn kn : String) :
    mn ++ "_" ++ kn ++ "_kernel_name" ≠ mn ++ "_blob" := by
  intro h
  have hlen := congrArg String.length h
  rw [String.length_append, String.length_append, String.length_append,
    String.length_append] at hlen
  have h1 : ("_" : String).length = 1 := rfl
  have h2 : ("_kernel_name" : String).length = 12 := rfl
  have h3 : ("_blob" : String).length = 5 := rfl
  rw [h1, h2, h3] at hlen
  omega

/-- C2 counterexample: the claim says that when the conversion fails the
cleanup sweep is not performed and the device modules are not removed.  On
`asyncFailureModule` the conversion fails (`passFailed = true`), the input
module has a device module, yet the pass output contains zero device
modules: the source calls `signalPassFailure()` without returning, so the
sweep at lines 272-275 runs anyway. -/
theorem cleanup_skipped_on_failure_cex :
    (runOnOperation "binary" (fun v => [v]) asyncFailureModule).passFailed
      = true ∧
    asyncFailureModule.gpuModules ≠ [] ∧
    (runOnOperation "binary" (fun v => [v])
      asyncFailureModule).result.gpuModules = [] := by
  decide

/-- C2 (amended): if the conversion fails, failure is signalled for the
invocation and the rest of the module is left in the partially-converted
state the conversion engine produced, but the cleanup sweep still runs:
the device modules are removed unconditionally. -/
theorem cleanup_runs_even_on_failure (ann : String) (p : Nat → List Nat)
    (m : ModuleOp)
    (hfail : (convertFuncs ann p ⟨m.globals, m.funcDecls, m.gpuModules⟩
      m.hostFuncs).2.2 ≠ none) :
    (runOnOperation ann p m).passFailed = true ∧
    (runOnOperation ann p m).result.gpuModules = [] ∧
    (runOnOperation ann p m).result.hostFuncs =
      (convertFuncs ann p ⟨m.globals, m.funcDecls, m.gpuModules⟩
        m.hostFuncs).2.1 ∧
    (runOnOperation ann p m).result.globals =
      (convertFuncs ann p ⟨m.globals, m.funcDecls, m.gpuModules⟩
        m.hostFuncs).1.globals := by
  refine ⟨?_, rfl, rfl, rfl⟩
  show (convertFuncs ann p ⟨m.globals, m.funcDecls, m.gpuModules⟩
    m.hostFuncs).2.2.isSome = true
  cases h : (convertFuncs ann p ⟨m.globals, m.funcDecls, m.gpuModules⟩
      m.hostFuncs).2.2 with
  | none => exact absurd h hfail
  | some e => rfl

/-- Witness for the amended C2 on `asyncFailureModule`. -/
theorem cleanup_runs_even_on_failure_witness :
    (runOnOperation "binary" (fun v => [v]) asyncFailureModule).passFailed
      = true ∧
    (runOnOperation "binary" (fun v => [v])
      asyncFailureModule).result.gpuModules = [] ∧
    (runOnOperation "binary" (fun v => [v])
      asyncFailureModule).result.hostFuncs =
      (convertFuncs "binary" (fun v => [v])
        ⟨asyncFailureModule.globals, asyncFailureModule.funcDecls,
         asyncFailureModule.gpuModules⟩ asyncFailureModule.hostFuncs).2.1 ∧
    (runOnOperation "binary" (fun v => [v])
      asyncFailureModule).result.globals =
      (convertFuncs "binary" (fun v => [v])
        ⟨asyncFailureModule.globals, asyncFailureModule.funcDecls,
         asyncFailureModule.gpuModules⟩ asyncFailureModule.hostFuncs).1.globals :=
  cleanup_runs_even_on_failure "binary" (fun v => [v]) asyncFailureModule
    (by decide)

/-- C3: for a module whose launch instructions are all synchronous, after a
successful pass run zero launch instructions remain in any host function
and the module tree contains zero device modules. -/
theorem no_residual_launches_or_device_modules (ann : String)
    (p : Nat → List Nat) (m : ModuleOp)
    (_hsync : ∀ f ∈ m.hostFuncs, ∀ q ∈ f.launches,
      (q : LaunchFuncOp × List Nat).1.asyncDependencyCount = 0 ∧
      q.1.hasAsyncToken = false)
    (hok : (runOnOperation ann p m).passFailed = false) :
    (∀ f ∈ (runOnOperation ann p m).result.hostFuncs, f.launches = []) ∧
    (runOnOperation ann p m).result.gpuModules = [] := by
  have hok2 : (convertFuncs ann p ⟨m.globals, m.funcDecls, m.gpuModules⟩
      m.hostFuncs).2.2.isSome = false := hok
  have herr : (convertFuncs ann p ⟨m.globals, m.funcDecls, m.gpuModules⟩
      m.hostFuncs).2.2 = none := by
    cases h : (convertFuncs ann p ⟨m.globals, m.funcDecls, m.gpuModules⟩
        m.hostFuncs).2.2 with
    | none => rfl
    | some e => rw [h] at hok2; simp at hok2
  exact ⟨convertFuncs_none_launches ann p m.hostFuncs _ herr, rfl⟩

/-- Witness for C3 on `twoLaunchModule` (all launches synchronous, pass
succeeds). -/
theorem no_residual_launches_or_device_modules_witness :
    (∀ f ∈ (runOnOperation "binary" (fun v => [v])
      twoLaunchModule).result.hostFuncs, f.launches = []) ∧
    (runOnOperation "binary" (fun v => [v])
      twoLaunchModule).result.gpuModules = [] :=
  no_residual_launches_or_device_modules "binary" (fun v => [v])
    twoLaunchModule (by decide) (by decide)

/-- C4: a launch instruction with an asynchronous dependency or result
marker is rejected by the rewrite rule with the "cannot convert" match
failure (so no call is emitted for it), and a pass invocation on any module
containing such a launch fails. -/
theorem async_launch_rejected (ann : String) (p : Nat → List Nat)
    (sym : SymbolState) (fargs : List Nat) (launch : LaunchFuncOp)
    (operands : List Nat) (m : ModuleOp)
    (hasync : launch.asyncDependencyCount ≠ 0 ∨
      launch.hasAsyncToken = true) :
    matchAndRewrite ann p sym fargs launch operands =
      .error (.matchFailure
        "Cannot convert with async dependency or result.") ∧
    ((∃ f ∈ m.hostFuncs, ∃ ops, (launch, ops) ∈ f.launches) →
      (runOnOperation ann p m).passFailed = true) := by
  have hrej0 : ∀ (s : SymbolState) (fa : List Nat) (opsx : List Nat),
      matchAndRewrite ann p s fa launch opsx =
        .error (.matchFailure
          "Cannot convert with async dependency or result.") := by
    intro s fa opsx
    unfold matchAndRewrite
    rw [if_pos hasync]
  refine ⟨hrej0 sym fargs operands, ?_⟩
  rintro ⟨f, hf, ops, hmem⟩
  show (convertFuncs ann p ⟨m.globals, m.funcDecls, m.gpuModules⟩
    m.hostFuncs).2.2.isSome = true
  refine convertFuncs_stuck ann p launch ops m.gpuModules ?_ m.hostFuncs _
    ⟨f, hf, hmem⟩ rfl
  intro s fa _ r hr
  rw [hrej0 s fa ops] at hr
  exact absurd hr (by simp)

/-- Witness for C4 on the asynchronous launch of `asyncFailureModule`. -/
theorem async_launch_rejected_witness :
    matchAndRewrite "binary" (fun v => [v])
      ⟨[], [], [⟨"K", [("binary", .str [171])]⟩]⟩ [9]
      ⟨"K", "kern", 1, false, 2⟩ [0, 1, 2, 3, 4, 5, 6, 7, 8] =
      .error (.matchFailure
        "Cannot convert with async dependency or result.") ∧
    ((∃ f ∈ asyncFailureModule.hostFuncs, ∃ ops,
        ((⟨"K", "kern", 1, false, 2⟩ : LaunchFuncOp), ops) ∈ f.launches) →
      (runOnOperation "binary" (fun v => [v])
        asyncFailureModule).passFailed = true) :=
  async_launch_rejected "binary" (fun v => [v])
    ⟨[], [], [⟨"K", [("binary", .str [171])]⟩]⟩ [9]
    ⟨"K", "kern", 1, false, 2⟩ [0, 1, 2, 3, 4, 5, 6, 7, 8]
    asyncFailureModule (by decide)

/-- C5: the parameter marshaller, run on any list of `n` promoted argument
values (including `n = 0`), terminates successfully and returns the base
address of the stack-allocated pointer array (allocation 1); a
stack-allocated aggregate (allocation 0) exists; slot `k` of the array
holds the type-erased address of field `k` of the aggregate, and
dereferencing it yields the `k`-th argument value, in the original order.
Zero arguments still yield a valid array and a valid empty aggregate. -/
theorem marshaller_yields_arguments_in_order (args : List (Nat × LLVMTy))
    (vals : List RVal) (f : Nat) (st : MState)
    (hlen : args.length = vals.length)
    (hargs : ∀ k q, args.get? k = some q →
      q.1 < f ∧ st.env q.1 = vals.get? k)
    (halloc : st.nextAlloc = 0)
    (hsmall : args.length ≤ 2 ^ 31) :
    ∃ st2, exec (generateParamsArray args f).1 st = some st2 ∧
      st2.env (generateParamsArray args f).2 = some (.ptrV ⟨1, 0⟩) ∧
      st2.env (f + 1) = some (.ptrV ⟨0, 0⟩) ∧
      ∀ k, k < args.length →
        st2.mem ⟨1, k⟩ = some (.ptrV ⟨0, k⟩) ∧
        st2.mem ⟨0, k⟩ = vals.get? k := by
  obtain ⟨st2, h1, h2, h3, h4, _⟩ :=
    generateParamsArray_exec args vals f st hlen hargs halloc hsmall
  exact ⟨st2, h1, h2, h3, h4⟩

/-- Witness for C5: two concrete arguments, and the zero-argument edge
case. -/
theorem marshaller_yields_arguments_in_order_witness :
    (∃ st2, exec (generateParamsArray [(0, .i64), (1, .i64)] 2).1
        (mkInitState [.sym "a" 0, .sym "a" 1]) = some st2 ∧
      st2.env (generateParamsArray [(0, .i64), (1, .i64)] 2).2 =
        some (.ptrV ⟨1, 0⟩) ∧
      st2.env 3 = some (.ptrV ⟨0, 0⟩) ∧
      ∀ k, k < ([(0, .i64), (1, .i64)] : List (Nat × LLVMTy)).length →
        st2.mem ⟨1, k⟩ = some (.ptrV ⟨0, k⟩) ∧
        st2.mem ⟨0, k⟩ = ([.sym "a" 0, .sym "a" 1] : List RVal).get? k) ∧
    (∃ st2, exec (generateParamsArray [] 0).1 (mkInitState []) = some st2 ∧
      st2.env (generateParamsArray [] 0).2 = some (.ptrV ⟨1, 0⟩) ∧
      st2.env 1 = some (.ptrV ⟨0, 0⟩) ∧
      ∀ k, k < ([] : List (Nat × LLVMTy)).length →
        st2.mem ⟨1, k⟩ = some (.ptrV ⟨0, k⟩) ∧
        st2.mem ⟨0, k⟩ = ([] : List RVal).get? k) := by
  constructor
  · refine marshaller_yields_arguments_in_order _ _ 2 _ (by decide) ?_
      (by decide) (by decide)
    intro k q hq
    match k with
    | 0 =>
      cases hq
      exact ⟨by decide, rfl⟩
    | 1 =>
      cases hq
      exact ⟨by decide, rfl⟩
    | (n + 2) => simp at hq
  · refine marshaller_yields_arguments_in_order _ _ 0 _ (by decide) ?_
      (by decide) (by decide)
    intro k q hq
    simp at hq

/-- C8: a launch instruction whose resolved device module does not carry
the configured blob annotation makes the rewrite emit a diagnostic against
that module naming the expected attribute key and return failure, and the
pass invocation fails. -/
theorem missing_annotation_fails (ann : String) (p : Nat → List Nat)
    (launch : LaunchFuncOp) (m : ModuleOp) (km : GPUModuleOp)
    (hsync0 : launch.asyncDependencyCount = 0)
    (hsync1 : launch.hasAsyncToken = false)
    (hkm : m.gpuModules.find?
      (fun g => g.name = launch.kernelModuleName) = some km)
    (hattr : getStringAttr km.attrs ann = none) :
    (∀ (sym : SymbolState) (fargs operands : List Nat),
      sym.gpuModules = m.gpuModules →
      matchAndRewrite ann p sym fargs launch operands =
        .error (.opError km.name ("missing " ++ ann ++ " attribute"))) ∧
    ((∃ f ∈ m.hostFuncs, ∃ ops, (launch, ops) ∈ f.launches) →
      (runOnOperation ann p m).passFailed = true) := by
  have herr : ∀ (sym : SymbolState) (fargs operands : List Nat),
      sym.gpuModules = m.gpuModules →
      matchAndRewrite ann p sym fargs launch operands =
        .error (.opError km.name ("missing " ++ ann ++ " attribute")) := by
    intro sym fargs operands hG
    have hlook : lookupGPUModule sym launch.kernelModuleName = some km := by
      unfold lookupGPUModule
      rw [hG]
      exact hkm
    unfold matchAndRewrite
    rw [if_neg (by simp [hsync0, hsync1])]
    simp only [hlook, hattr]
  refine ⟨herr, ?_⟩
  rintro ⟨f, hf, ops, hmem⟩
  show (convertFuncs ann p ⟨m.globals, m.funcDecls, m.gpuModules⟩
    m.hostFuncs).2.2.isSome = true
  refine convertFuncs_stuck ann p launch ops m.gpuModules ?_ m.hostFuncs _
    ⟨f, hf, hmem⟩ rfl
  intro s fa hG r hr
  rw [herr s fa ops hG] at hr
  exact absurd hr (by simp)

/-- Witness for C8 on `missingAnnotationModule`. -/
theorem missing_annotation_fails_witness :
    (∀ (sym : SymbolState) (fargs operands : List Nat),
      sym.gpuModules = missingAnnotationModule.gpuModules →
      matchAndRewrite "binary" (fun v => [v]) sym fargs
        ⟨"K", "kern", 0, false, 2⟩ operands =
        .error (.opError "K" ("missing " ++ "binary" ++ " attribute"))) ∧
    ((∃ f ∈ missingAnnotationModule.hostFuncs, ∃ ops,
        ((⟨"K", "kern", 0, false, 2⟩ : LaunchFuncOp), ops) ∈ f.launches) →
      (runOnOperation "binary" (fun v => [v])
        missingAnnotationModule).passFailed = true) :=
  missing_annotation_fails "binary" (fun v => [v])
    ⟨"K", "kern", 0, false, 2⟩ missingAnnotationModule ⟨"K", []⟩
    (by decide) (by decide) (by decide) (by decide)

/-- C9: an attribute under the configured key whose value is not
string-typed is treated exactly like a missing annotation: the rewrite
emits the same missing-attribute diagnostic and fails, and the pass
invocation fails. -/
theorem nonstring_annotation_fails (ann : String) (p : Nat → List Nat)
    (launch : LaunchFuncOp) (m : ModuleOp) (km : GPUModuleOp) (key : String)
    (hsync0 : launch.asyncDependencyCount = 0)
    (hsync1 : launch.hasAsyncToken = false)
    (hkm : m.gpuModules.find?
      (fun g => g.name = launch.kernelModuleName) = some km)
    (hfind : km.attrs.find? (fun a => a.1 = ann) = some (key, .nonStr)) :
    (∀ (sym : SymbolState) (fargs operands : List Nat),
      sym.gpuModules = m.gpuModules →
      matchAndRewrite ann p sym fargs launch operands =
        .error (.opError km.name ("missing " ++ ann ++ " attribute"))) ∧
    ((∃ f ∈ m.hostFuncs, ∃ ops, (launch, ops) ∈ f.launches) →
      (runOnOperation ann p m).passFailed = true) := by
  have hattr : getStringAttr km.attrs ann = none := by
    unfold getStringAttr
    rw [hfind]
  exact missing_annotation_fails ann p launch m km hsync0 hsync1 hkm hattr

/-- Witness for C9 on `nonStringAnnotationModule`. -/
theorem nonstring_annotation_fails_witness :
    (∀ (sym : SymbolState) (fargs operands : List Nat),
      sym.gpuModules = nonStringAnnotationModule.gpuModules →
      matchAndRewrite "binary" (fun v => [v]) sym fargs
        ⟨"K", "kern", 0, false, 2⟩ operands =
        .error (.opError "K" ("missing " ++ "binary" ++ " attribute"))) ∧
    ((∃ f ∈ nonStringAnnotationModule.hostFuncs, ∃ ops,
        ((⟨"K", "kern", 0, false, 2⟩ : LaunchFuncOp), ops) ∈ f.launches) →
      (runOnOperation "binary" (fun v => [v])
        nonStringAnnotationModule).passFailed = true) :=
  nonstring_annotation_fails "binary" (fun v => [v])
    ⟨"K", "kern", 0, false, 2⟩ nonStringAnnotationModule
    ⟨"K", [("binary", .nonStr)]⟩ "binary"
    (by decide) (by decide) (by decide) (by decide)

theorem mem_createGlobalString (s : SymbolState) (n : String) (b : List Nat)
    (x : String × List Nat) (h : x ∈ s.globals) :
    x ∈ (createGlobalString s n b).1.globals := by
  unfold createGlobalString
  split
  · exact h
  · exact List.mem_cons_of_mem _ h

theorem createGlobalString_globals_of_absent (s : SymbolState) (n : String)
    (b : List Nat) (h : (s.globals.any fun g => g.1 = n) = false) :
    (createGlobalString s n b).1.globals = (n, b) :: s.globals := by
  unfold createGlobalString
  rw [h]
  simp

/-- C6: a successful rewrite emits the kernel entry-point name as a global
named `<module>_<kernel>_kernel_name` whose payload is the name's bytes
followed by exactly one explicitly appended zero byte, and the blob as a
global named `<module>_blob`. -/
theorem blob_and_kernel_name_constants (ann : String) (p : Nat → List Nat)
    (sym : SymbolState) (fargs : List Nat) (launch : LaunchFuncOp)
    (operands : List Nat) (sym2 : SymbolState) (call : CallDesc)
    (km : GPUModuleOp) (binary : List Nat)
    (hok : matchAndRewrite ann p sym fargs launch operands = .ok (sym2, call))
    (hkm : lookupGPUModule sym launch.kernelModuleName = some km)
    (hbin : getStringAttr km.attrs ann = some binary)
    (hb : (sym.globals.any fun g => g.1 = km.name ++ "_blob") = false)
    (hk : (sym.globals.any fun g =>
      g.1 = km.name ++ "_" ++ launch.kernelName ++ "_kernel_name")
      = false) :
    (km.name ++ "_blob", binary) ∈ sym2.globals ∧
    (km.name ++ "_" ++ launch.kernelName ++ "_kernel_name",
      strBytes launch.kernelName ++ [0]) ∈ sym2.globals := by
  obtain ⟨km2, binary2, c, g0, g1, g2, g3, g4, g5, _, _, hkm2, hbin2, _, _,
    _, _, _, _, _, hsym, _⟩ := matchAndRewrite_ok_inv ann p sym fargs launch
      operands sym2 call hok
  rw [hkm] at hkm2
  injection hkm2 with hkmEq
  subst hkmEq
  rw [hbin] at hbin2
  injection hbin2 with hbinEq
  subst hbinEq
  rw [hsym, ensureLaunchHelper_globals]
  have hcg1 : (createGlobalString sym (km.name ++ "_blob")
      binary).1.globals = (km.name ++ "_blob", binary) :: sym.globals :=
    createGlobalString_globals_of_absent sym _ binary hb
  have hne : km.name ++ "_blob" ≠
      km.name ++ "_" ++ launch.kernelName ++ "_kernel_name" :=
    fun hEq => kernelNameGlobal_ne_blobName km.name launch.kernelName
      hEq.symm
  have hany2 : ((createGlobalString sym (km.name ++ "_blob")
      binary).1.globals.any (fun g =>
        g.1 = km.name ++ "_" ++ launch.kernelName ++ "_kernel_name"))
      = false := by
    rw [hcg1]
    simp [hne, hk]
  constructor
  · refine mem_createGlobalString _ _ _ _ ?_
    rw [hcg1]
    exact List.mem_cons_self _ _
  · rw [createGlobalString_globals_of_absent _ _ _ hany2]
    exact List.mem_cons_self _ _

/-- Witness for C6 on the concrete one-launch module of the end-to-end
scenario. -/
theorem blob_and_kernel_name_constants_witness :
    ("K" ++ "_blob", [171]) ∈
      (⟨[("K_kern_kernel_name", strBytes "kern" ++ [0]), ("K_blob", [171])],
        [(kTfWrapperLibaryLaunchHelperName, tfLaunchHelperType)],
        [⟨"K", [("binary", .str [171])]⟩]⟩ : SymbolState).globals ∧
    ("K" ++ "_" ++ "kern" ++ "_kernel_name", strBytes "kern" ++ [0]) ∈
      (⟨[("K_kern_kernel_name", strBytes "kern" ++ [0]), ("K_blob", [171])],
        [(kTfWrapperLibaryLaunchHelperName, tfLaunchHelperType)],
        [⟨"K", [("binary", .str [171])]⟩]⟩ : SymbolState).globals :=
  blob_and_kernel_name_constants "binary" (fun v => [v])
    ⟨[], [], [⟨"K", [("binary", .str [171])]⟩]⟩ [9]
    ⟨"K", "kern", 0, false, 2⟩ [1, 2, 3, 4, 5, 6, 7, 8]
    ⟨[("K_kern_kernel_name", strBytes "kern" ++ [0]), ("K_blob", [171])],
      [(kTfWrapperLibaryLaunchHelperName, tfLaunchHelperType)],
      [⟨"K", [("binary", .str [171])]⟩]⟩
    { callee := kTfWrapperLibaryLaunchHelperName
      resultTy := .void
      args := [.contextArg 9, .globalRef "K_blob",
               .globalRef "K_kern_kernel_name", .dim 1, .dim 2, .dim 3,
               .dim 4, .dim 5, .dim 6, .params [7, 8]] }
    ⟨"K", [("binary", .str [171])]⟩ [171]
    (by decide) (by decide) (by decide) (by decide) (by decide)

/-- C7: the emitted call passes its arguments in the fixed order context,
blob, name, grid-x, grid-y, grid-z, block-x, block-y, block-z, parameter
array, where the context is the first formal parameter of the enclosing
function used unmodified, the six dimension operands are taken directly
from the (converted) launch operands, and the call's result type is void
(the result is discarded). -/
theorem runtime_call_shape (ann : String) (p : Nat → List Nat)
    (sym : SymbolState) (fargs : List Nat) (launch : LaunchFuncOp)
    (operands : List Nat) (sym2 : SymbolState) (call : CallDesc)
    (hok : matchAndRewrite ann p sym fargs launch operands
      = .ok (sym2, call)) :
    ∃ c g0 g1 g2 g3 g4 g5,
      fargs.get? 0 = some c ∧
      operands.get? 0 = some g0 ∧ operands.get? 1 = some g1 ∧
      operands.get? 2 = some g2 ∧ operands.get? 3 = some g3 ∧
      operands.get? 4 = some g4 ∧ operands.get? 5 = some g5 ∧
      call = { callee := kTfWrapperLibaryLaunchHelperName
               resultTy := .void
               args := [.contextArg c,
                 .globalRef (launch.kernelModuleName ++ "_blob"),
                 .globalRef (launch.kernelModuleName ++ "_" ++
                   launch.kernelName ++ "_kernel_name"),
                 .dim g0, .dim g1, .dim g2, .dim g3, .dim g4, .dim g5,
                 .params (promoteOperands p
                   (takeBack operands launch.numKernelOperands))] } := by
  obtain ⟨km, binary, c, g0, g1, g2, g3, g4, g5, _, _, hkm, _, hc, hg0, hg1,
    hg2, hg3, hg4, hg5, hsym, hcall⟩ := matchAndRewrite_ok_inv ann p sym
      fargs launch operands sym2 call hok
  have hname : km.name = launch.kernelModuleName := by
    unfold lookupGPUModule at hkm
    simpa using List.find?_some hkm
  refine ⟨c, g0, g1, g2, g3, g4, g5, hc, hg0, hg1, hg2, hg3, hg4, hg5, ?_⟩
  rw [hcall, hname]

/-- Witness for C7 on the concrete one-launch module. -/
theorem runtime_call_shape_witness :
    ∃ c g0 g1 g2 g3 g4 g5,
      ([9] : List Nat).get? 0 = some c ∧
      ([1, 2, 3, 4, 5, 6, 7, 8] : List Nat).get? 0 = some g0 ∧
      ([1, 2, 3, 4, 5, 6, 7, 8] : List Nat).get? 1 = some g1 ∧
      ([1, 2, 3, 4, 5, 6, 7, 8] : List Nat).get? 2 = some g2 ∧
      ([1, 2, 3, 4, 5, 6, 7, 8] : List Nat).get? 3 = some g3 ∧
      ([1, 2, 3, 4, 5, 6, 7, 8] : List Nat).get? 4 = some g4 ∧
      ([1, 2, 3, 4, 5, 6, 7, 8] : List Nat).get? 5 = some g5 ∧
      ({ callee := kTfWrapperLibaryLaunchHelperName
         resultTy := .void
         args := [.contextArg 9, .globalRef "K_blob",
                  .globalRef "K_kern_kernel_name", .dim 1, .dim 2, .dim 3,
                  .dim 4, .dim 5, .dim 6, .params [7, 8]] } : CallDesc) =
        { callee := kTfWrapperLibaryLaunchHelperName
          resultTy := .void
          args := [.contextArg c,
            .globalRef ((⟨"K", "kern", 0, false, 2⟩ :
              LaunchFuncOp).kernelModuleName ++ "_blob"),
            .globalRef ((⟨"K", "kern", 0, false, 2⟩ :
              LaunchFuncOp).kernelModuleName ++ "_" ++
              (⟨"K", "kern", 0, false, 2⟩ : LaunchFuncOp).kernelName ++
              "_kernel_name"),
            .dim g0, .dim g1, .dim g2, .dim g3, .dim g4, .dim g5,
            .params (promoteOperands (fun v => [v])
              (takeBack [1, 2, 3, 4, 5, 6, 7, 8]
                (⟨"K", "kern", 0, false, 2⟩ :
                  LaunchFuncOp).numKernelOperands))] } :=
  runtime_call_shape "binary" (fun v => [v])
    ⟨[], [], [⟨"K", [("binary", .str [171])]⟩]⟩ [9]
    ⟨"K", "kern", 0, false, 2⟩ [1, 2, 3, 4, 5, 6, 7, 8]
    ⟨[("K_kern_kernel_name", strBytes "kern" ++ [0]), ("K_blob", [171])],
      [(kTfWrapperLibaryLaunchHelperName, tfLaunchHelperType)],
      [⟨"K", [("binary", .str [171])]⟩]⟩
    { callee := kTfWrapperLibaryLaunchHelperName
      resultTy := .void
      args := [.contextArg 9, .globalRef "K_blob",
               .globalRef "K_kern_kernel_name", .dim 1, .dim 2, .dim 3,
               .dim 4, .dim 5, .dim 6, .params [7, 8]] }
    (by decide)

/-- C1: for a module containing two launch instructions referencing the
same device module `K` (and no prior globals/declarations with the emitted
names), after a successful run exactly one `K_blob` global and exactly one
entry-point declaration exist; moreover a second emission request for an
already-used global name returns the existing constant without emitting a
new one. -/
theorem dedup_invariant (ann : String) (p : Nat → List Nat) (m : ModuleOp)
    (K : String)
    (h2 : 2 ≤ (allLaunchPairs m).countP
      (fun q => q.1.kernelModuleName = K))
    (hb0 : m.globals.countP (fun g => g.1 = K ++ "_blob") = 0)
    (hd0 : m.funcDecls.countP
      (fun g => g.1 = kTfWrapperLibaryLaunchHelperName) = 0)
    (hok : (runOnOperation ann p m).passFailed = false) :
    (runOnOperation ann p m).result.globals.countP
      (fun g => g.1 = K ++ "_blob") = 1 ∧
    (runOnOperation ann p m).result.funcDecls.countP
      (fun g => g.1 = kTfWrapperLibaryLaunchHelperName) = 1 ∧
    ∀ (s : SymbolState) (name : String) (payload : List Nat),
      (s.globals.any fun g => g.1 = name) = true →
      createGlobalString s name payload = (s, name) := by
  have hok2 : (convertFuncs ann p ⟨m.globals, m.funcDecls, m.gpuModules⟩
      m.hostFuncs).2.2.isSome = false := hok
  have herr : (convertFuncs ann p ⟨m.globals, m.funcDecls, m.gpuModules⟩
      m.hostFuncs).2.2 = none := by
    cases h : (convertFuncs ann p ⟨m.globals, m.funcDecls, m.gpuModules⟩
        m.hostFuncs).2.2 with
    | none => rfl
    | some e => rw [h] at hok2; simp at hok2
  have hpos : 0 < (allLaunchPairs m).countP
      (fun q => q.1.kernelModuleName = K) := by omega
  obtain ⟨q, hqmem, hqpred⟩ := List.countP_pos_iff.mp hpos
  obtain ⟨l, ops⟩ := q
  have hK : l.kernelModuleName = K := by simpa using hqpred
  obtain ⟨f, hf, hfl⟩ : ∃ f ∈ m.hostFuncs, (l, ops) ∈ f.launches := by
    unfold allLaunchPairs at hqmem
    obtain ⟨ll, hll, hin⟩ := List.mem_flatten.mp hqmem
    obtain ⟨f, hf, rfl⟩ := List.mem_map.mp hll
    exact ⟨f, hf, hin⟩
  have hμg : ∀ (sym : SymbolState) (fargs : List Nat) (l1 : LaunchFuncOp)
      (ops1 : List Nat) (sym2 : SymbolState) (call : CallDesc),
      matchAndRewrite ann p sym fargs l1 ops1 = .ok (sym2, call) →
      globalCount sym (K ++ "_blob") ≤ globalCount sym2 (K ++ "_blob") ∧
      globalCount sym2 (K ++ "_blob") ≤
        max (globalCount sym (K ++ "_blob")) 1 :=
    fun sym fargs l1 ops1 sym2 call h =>
      matchAndRewrite_ok_globalCount ann p sym fargs l1 ops1 sym2 call _ h
  have hμd : ∀ (sym : SymbolState) (fargs : List Nat) (l1 : LaunchFuncOp)
      (ops1 : List Nat) (sym2 : SymbolState) (call : CallDesc),
      matchAndRewrite ann p sym fargs l1 ops1 = .ok (sym2, call) →
      declCount sym kTfWrapperLibaryLaunchHelperName ≤
        declCount sym2 kTfWrapperLibaryLaunchHelperName ∧
      declCount sym2 kTfWrapperLibaryLaunchHelperName ≤
        max (declCount sym kTfWrapperLibaryLaunchHelperName) 1 :=
    fun sym fargs l1 ops1 sym2 call h =>
      matchAndRewrite_ok_declCount ann p sym fargs l1 ops1 sym2 call _ h
  have hble := (convertFuncs_mu ann p
    (fun s => globalCount s (K ++ "_blob")) hμg m.hostFuncs
    ⟨m.globals, m.funcDecls, m.gpuModules⟩).2
  have hbge := convertFuncs_mu_created ann p
    (fun s => globalCount s (K ++ "_blob")) hμg l ops
    (fun sym fargs sym2 call h => by
      have hcr := (matchAndRewrite_ok_created ann p sym fargs l ops sym2
        call h).1
      rw [hK] at hcr
      exact hcr)
    m.hostFuncs ⟨m.globals, m.funcDecls, m.gpuModules⟩ ⟨f, hf, hfl⟩ herr
  have hdle := (convertFuncs_mu ann p
    (fun s => declCount s kTfWrapperLibaryLaunchHelperName) hμd m.hostFuncs
    ⟨m.globals, m.funcDecls, m.gpuModules⟩).2
  have hdge := convertFuncs_mu_created ann p
    (fun s => declCount s kTfWrapperLibaryLaunchHelperName) hμd l ops
    (fun sym fargs sym2 call h =>
      (matchAndRewrite_ok_created ann p sym fargs l ops sym2 call h).2)
    m.hostFuncs ⟨m.globals, m.funcDecls, m.gpuModules⟩ ⟨f, hf, hfl⟩ herr
  have hb0a : globalCount ⟨m.globals, m.funcDecls, m.gpuModules⟩
      (K ++ "_blob") = 0 := hb0
  have hd0a : declCount ⟨m.globals, m.funcDecls, m.gpuModules⟩
      kTfWrapperLibaryLaunchHelperName = 0 := hd0
  rw [hb0a] at hble
  rw [hd0a] at hdle
  simp only [Nat.zero_max] at hble hdle hbge hdge
  refine ⟨?_, ?_, ?_⟩
  · show globalCount (convertFuncs ann p
      ⟨m.globals, m.funcDecls, m.gpuModules⟩ m.hostFuncs).1
      (K ++ "_blob") = 1
    omega
  · show declCount (convertFuncs ann p
      ⟨m.globals, m.funcDecls, m.gpuModules⟩ m.hostFuncs).1
      kTfWrapperLibaryLaunchHelperName = 1
    omega
  · intro s name payload h
    simp [createGlobalString, h]

/-- Witness for C1 on `twoLaunchModule`. -/
theorem dedup_invariant_witness :
    (runOnOperation "binary" (fun v => [v])
      twoLaunchModule).result.globals.countP
      (fun g => g.1 = "K" ++ "_blob") = 1 ∧
    (runOnOperation "binary" (fun v => [v])
      twoLaunchModule).result.funcDecls.countP
      (fun g => g.1 = kTfWrapperLibaryLaunchHelperName) = 1 ∧
    ∀ (s : SymbolState) (name : String) (payload : List Nat),
      (s.globals.any fun g => g.1 = name) = true →
      createGlobalString s name payload = (s, name) :=
  dedup_invariant "binary" (fun v => [v]) twoLaunchModule "K"
    (by decide) (by decide) (by decide) (by decide)

/-- C10: the marshalled parameter list of a successful rewrite is exactly
the promotion of the trailing kernel-operand suffix of the converted
operand list (so its size equals the number of promoted arguments, which
can exceed the launch's kernel-operand count), and the emitted pointer
array has exactly that many occupied slots: slot `k` is occupied iff `k`
is below the number of promoted arguments. -/
theorem param_array_counts_promoted_arguments (ann : String)
    (p : Nat → List Nat) (sym : SymbolState) (fargs : List Nat)
    (launch : LaunchFuncOp) (operands : List Nat) (sym2 : SymbolState)
    (call : CallDesc)
    (hok : matchAndRewrite ann p sym fargs launch operands
      = .ok (sym2, call))
    (args : List (Nat × LLVMTy)) (vals : List RVal) (f : Nat) (st : MState)
    (hpair : args.map Prod.fst =
      promoteOperands p (takeBack operands launch.numKernelOperands))
    (hlen : args.length = vals.length)
    (hargs : ∀ k q, args.get? k = some q →
      q.1 < f ∧ st.env q.1 = vals.get? k)
    (halloc : st.nextAlloc = 0)
    (hmem : ∀ a, st.mem a = none)
    (hsmall : args.length ≤ 2 ^ 31) :
    call.args.getLast? = some (.params (promoteOperands p
      (takeBack operands launch.numKernelOperands))) ∧
    ∃ st2, exec (generateParamsArray args f).1 st = some st2 ∧
      ∀ k, (st2.mem ⟨1, k⟩).isSome = true ↔
        k < (promoteOperands p
          (takeBack operands launch.numKernelOperands)).length := by
  obtain ⟨km, binary, c, g0, g1, g2, g3, g4, g5, _, _, _, _, _, _, _, _, _,
    _, _, _, hcall⟩ := matchAndRewrite_ok_inv ann p sym fargs launch
      operands sym2 call hok
  constructor
  · rw [hcall]
    rfl
  · have hlenp : (promoteOperands p
        (takeBack operands launch.numKernelOperands)).length
        = args.length := by
      rw [← hpair, List.length_map]
    obtain ⟨st2, hexec, _, _, hslots, hpres⟩ :=
      generateParamsArray_exec args vals f st hlen hargs halloc hsmall
    refine ⟨st2, hexec, ?_⟩
    intro k
    rw [hlenp]
    constructor
    · intro hks
      by_contra hk
      push_neg at hk
      rw [hpres ⟨1, k⟩ (Or.inl hk), hmem] at hks
      simp at hks
    · intro hk
      rw [(hslots k hk).1]
      rfl

/-- Witness for C10: the type converter expands each of the two trailing
kernel operands into two values, so the parameter array has 4 entries,
exceeding the kernel-operand count 2. -/
theorem param_array_counts_promoted_arguments_witness :
    (({ callee := kTfWrapperLibaryLaunchHelperName
        resultTy := .void
        args := [.contextArg 9, .globalRef "K_blob",
                 .globalRef "K_kern_kernel_name", .dim 1, .dim 2, .dim 3,
                 .dim 4, .dim 5, .dim 6,
                 .params [7, 7, 8, 8]] } : CallDesc).args.getLast? =
      some (.params (promoteOperands (fun v => [v, v])
        (takeBack [1, 2, 3, 4, 5, 6, 7, 8]
          (⟨"K", "kern", 0, false, 2⟩ :
            LaunchFuncOp).numKernelOperands))) ∧
    ∃ st2, exec (generateParamsArray
        [(7, .i64), (7, .i64), (8, .i64), (8, .i64)] 9).1 c10State
        = some st2 ∧
      ∀ k, (st2.mem ⟨1, k⟩).isSome = true ↔
        k < (promoteOperands (fun v => [v, v])
          (takeBack [1, 2, 3, 4, 5, 6, 7, 8]
            (⟨"K", "kern", 0, false, 2⟩ :
              LaunchFuncOp).numKernelOperands)).length) ∧
    (promoteOperands (fun v => [v, v])
      (takeBack [1, 2, 3, 4, 5, 6, 7, 8] 2)).length = 4 ∧ 2 < 4 := by
  constructor
  · refine param_array_counts_promoted_arguments "binary" (fun v => [v, v])
      ⟨[], [], [⟨"K", [("binary", .str [171])]⟩]⟩ [9]
      ⟨"K", "kern", 0, false, 2⟩ [1, 2, 3, 4, 5, 6, 7, 8]
      ⟨[("K_kern_kernel_name", strBytes "kern" ++ [0]), ("K_blob", [171])],
        [(kTfWrapperLibaryLaunchHelperName, tfLaunchHelperType)],
        [⟨"K", [("binary", .str [171])]⟩]⟩
      { callee := kTfWrapperLibaryLaunchHelperName
        resultTy := .void
        args := [.contextArg 9, .globalRef "K_blob",
                 .globalRef "K_kern_kernel_name", .dim 1, .dim 2, .dim 3,
                 .dim 4, .dim 5, .dim 6,
                 .params [7, 7, 8, 8]] }
      (by decide) [(7, .i64), (7, .i64), (8, .i64), (8, .i64)]
      [.sym "x" 7, .sym "x" 7, .sym "x" 8, .sym "x" 8] 9 c10State
      (by decide) (by decide) ?_ (by decide) (fun a => rfl) (by decide)
    intro k q hq
    match k with
    | 0 =>
      cases hq
      exact ⟨by decide, rfl⟩
    | 1 =>
      cases hq
      exact ⟨by decide, rfl⟩
    | 2 =>
      cases hq
      exact ⟨by decide, rfl⟩
    | 3 =>
      cases hq
      exact ⟨by decide, rfl⟩
    | (n + 4) => simp at hq
  · exact ⟨by decide, by decide⟩

end TFKernelToLLVM
